import Mathlib

/-!
# registry-migration: a shallow embedding of `main.go`

The program logs into two registries through a container engine, reads the
catalog of the source registry over HTTP, filters it by a regular expression
and copies every tag of every selected repository (pull, tag, push, remove).

Everything the program does to the outside is recorded in a trace of
`Event`s, in the order it happens.  The outside itself (the engine
processes, the registry, the `regexp` package) is a `World`: the outcome of
an engine process or of an HTTP request may depend on everything that
happened before, so the same request can be answered differently each time.
-/

namespace RegistryMigration

/-! ## Errors, events and the world -/

/-- Go `error` values met by the program. `msg` is an error with a known
text (`errors.New`, or an error reported by the environment);
`jsonSyntax` and `jsonType` are the two kinds of error `json.Unmarshal`
returns (`*json.SyntaxError`, `*json.UnmarshalTypeError`). -/
inductive GoError
  | msg (text : String)
  | jsonSyntax
  | jsonType
  deriving DecidableEq, Repr

/-- Result of `ioutil.ReadAll(response.Body)`: the bytes of the body, or an
error. -/
inductive ReadResult
  | data (bytes : List UInt8)
  | failed (err : GoError)
  deriving DecidableEq, Repr

/-- The fields of `http.Response` the program reads. -/
structure Response where
  StatusCode : Nat
  Status : String
  Body : ReadResult
  deriving DecidableEq, Repr

/-- Result of `http.Get(url)`. -/
inductive GetResult
  | response (r : Response)
  | failed (err : GoError)
  deriving DecidableEq, Repr

/-- An argument of a formatted log line, kept unformatted. -/
inductive Arg
  | str (s : String)
  | strs (l : List String)
  | err (e : GoError)
  deriving DecidableEq, Repr

/-- What the program does to the outside, with the answer it got.
`run argv result` is `exec.Command(argv[0], argv[1:]...).Run()`, where
`result = none` means the process exited zero; `get url result` is
`http.Get(url)`; the others are `log.Infof`, `log.Errorf`, `log.Fatalf`
and `fmt.Printf` with their format string and arguments. -/
inductive Event
  | run (argv : List String) (result : Option GoError)
  | get (url : String) (result : GetResult)
  | infof (format : String) (args : List Arg)
  | errorf (format : String) (args : List Arg)
  | fatalf (format : String) (args : List Arg)
  | printf (format : String) (args : List Arg)
  deriving DecidableEq, Repr

/-- How the process ends: `returned` is a normal return from `main` (exit
status zero), `fatal` is the `os.Exit(1)` of `log.Fatalf`. -/
inductive Exit
  | returned
  | fatal
  deriving DecidableEq, Repr

/-- A compiled `*regexp.Regexp`, seen through `MatchString`. -/
structure Regexp where
  MatchString : String → Bool

/-- Result of `regexp.Compile`. -/
inductive CompileResult
  | ok (regex : Regexp)
  | failed (err : GoError)

/-- The environment of one run. `Run` and `Get` receive the trace so far, so
that every sequence of outcomes is the behaviour of some world; `Compile` is
the `regexp` package. -/
structure World where
  Run : List Event → List String → Option GoError
  Get : List Event → String → GetResult
  Compile : String → CompileResult

/-! ## Configuration -/

structure applicationConfiguration where
  Executable : String
  SourceUrl : String
  SourceLogin : String
  SourcePassword : String
  SourceInclude : String
  DestinationUrl : String
  DestinationLogin : String
  DestinationPassword : String
  deriving DecidableEq, Repr

/-- The values found under the key `app` of the configuration file, one per
field of `applicationConfiguration`; `none` is a key that is absent. -/
structure AppKeys where
  Executable : Option String
  SourceUrl : Option String
  SourceLogin : Option String
  SourcePassword : Option String
  SourceInclude : Option String
  DestinationUrl : Option String
  DestinationLogin : Option String
  DestinationPassword : Option String
  deriving DecidableEq, Repr

/-- The decoding `viper.UnmarshalKey("app", &config)` does: a key that is
present (and decoded) overwrites the field, any other field is left as it
is. -/
def UnmarshalKey (keys : AppKeys) (c : applicationConfiguration) : applicationConfiguration :=
  { Executable := keys.Executable.getD c.Executable
    SourceUrl := keys.SourceUrl.getD c.SourceUrl
    SourceLogin := keys.SourceLogin.getD c.SourceLogin
    SourcePassword := keys.SourcePassword.getD c.SourcePassword
    SourceInclude := keys.SourceInclude.getD c.SourceInclude
    DestinationUrl := keys.DestinationUrl.getD c.DestinationUrl
    DestinationLogin := keys.DestinationLogin.getD c.DestinationLogin
    DestinationPassword := keys.DestinationPassword.getD c.DestinationPassword }

/-- The function `init` of main.go, lines 46-66: `file` is the outcome of
`viper.ReadInConfig()`, an error or the keys under `app` together with the
error `viper.UnmarshalKey` reports, if any. A read error is fatal; otherwise
the configuration is the literal of lines 59-62 (every other field is the
empty string) overwritten by the keys of the file, and the error of
`UnmarshalKey` is only logged. -/
def init (file : GoError ⊕ (AppKeys × Option GoError)) :
    List Event × Option applicationConfiguration :=
  match file with
  | Sum.inl err => ([Event.fatalf "unable to read config file: %s" [Arg.err err]], none)
  | Sum.inr (keys, err) =>
    ((match err with
      | some e => [Event.errorf "unable to read application config: %s" [Arg.err e]]
      | none => []),
     some (UnmarshalKey keys
      { Executable := "docker"
        SourceUrl := ""
        SourceLogin := ""
        SourcePassword := ""
        SourceInclude := ".*"
        DestinationUrl := ""
        DestinationLogin := ""
        DestinationPassword := "" }))

/-! ## Bytes and characters

A body is a sequence of bytes. `encoding/json` reads it byte by byte; every
byte with a meaning of its own in JSON is ASCII, and inside a string literal
the bytes are decoded as UTF-8, a byte that does not start a valid encoding
being read as U+FFFD. Decoding the whole body in that way first and reading
characters afterwards gives the same result, since an ASCII byte is never
part of a longer encoding. -/

/-- Whether a byte is a continuation byte, `0x80` to `0xBF`. -/
def isCont (b : UInt8) : Bool := 0x80 ≤ b.toNat && b.toNat ≤ 0xBF

/-- The function `utf8.DecodeRune`: the first character of the bytes and the
number of bytes it takes; U+FFFD and one byte when the bytes do not start
with a valid encoding (a wrong first byte, a byte missing or out of range,
an encoding that is too long, a surrogate, a value above U+10FFFF). -/
def decodeRune : List UInt8 → Char × Nat
  | [] => (Char.ofNat 0xFFFD, 0)
  | p0 :: rest =>
    let n0 := p0.toNat
    if n0 < 0x80 then (Char.ofNat n0, 1)
    else if n0 < 0xC2 ∨ 0xF4 < n0 then (Char.ofNat 0xFFFD, 1)
    else
      let lo := if n0 = 0xE0 then 0xA0 else if n0 = 0xF0 then 0x90 else 0x80
      let hi := if n0 = 0xED then 0x9F else if n0 = 0xF4 then 0x8F else 0xBF
      match rest with
      | [] => (Char.ofNat 0xFFFD, 1)
      | b1 :: rest1 =>
        if n0 < 0xE0 then
          if b1.toNat < lo ∨ hi < b1.toNat then (Char.ofNat 0xFFFD, 1)
          else (Char.ofNat ((n0 - 0xC0) * 64 + (b1.toNat - 0x80)), 2)
        else
          match rest1 with
          | [] => (Char.ofNat 0xFFFD, 1)
          | b2 :: rest2 =>
            if n0 < 0xF0 then
              if b1.toNat < lo ∨ hi < b1.toNat ∨ !isCont b2 then (Char.ofNat 0xFFFD, 1)
              else
                (Char.ofNat (((n0 - 0xE0) * 64 + (b1.toNat - 0x80)) * 64 + (b2.toNat - 0x80)), 3)
            else
              match rest2 with
              | [] => (Char.ofNat 0xFFFD, 1)
              | b3 :: _ =>
                if b1.toNat < lo ∨ hi < b1.toNat ∨ !isCont b2 ∨ !isCont b3 then
                  (Char.ofNat 0xFFFD, 1)
                else
                  (Char.ofNat ((((n0 - 0xF0) * 64 + (b1.toNat - 0x80)) * 64 +
                    (b2.toNat - 0x80)) * 64 + (b3.toNat - 0x80)), 4)

/-- The characters of a sequence of bytes, one `decodeRune` after the other;
`skip` is the number of bytes still to pass over, being part of the
character decoded last. -/
def utf8Decode : Nat → List UInt8 → List Char
  | _, [] => []
  | skip + 1, _ :: rest => utf8Decode skip rest
  | 0, b :: rest =>
    (decodeRune (b :: rest)).1 :: utf8Decode ((decodeRune (b :: rest)).2 - 1) rest

/-- The UTF-8 bytes of a string. -/
def utf8Bytes (s : String) : List UInt8 := s.toList.flatMap String.utf8EncodeChar

/-! ## `encoding/json`: `json.Unmarshal` into the two response types

`json.Unmarshal` first checks that the whole text is one valid JSON value
(surrounded by optional white space) and then stores the value into the
target. The text is read as the characters of its bytes, the value is a
`JSON` tree; the content of a number is not kept (no number is ever
stored). -/

inductive JSON
  | null
  | bool (b : Bool)
  | num
  | str (s : String)
  | arr (elems : List JSON)
  | obj (members : List (String × JSON))

/-- Skip JSON white space: space, tab, carriage return, line feed. -/
def skipWS : List Char → List Char
  | c :: cs => if c = ' ' ∨ c = '\t' ∨ c = '\r' ∨ c = '\n' then skipWS cs else c :: cs
  | [] => []

def hexVal (c : Char) : Option Nat :=
  if '0' ≤ c ∧ c ≤ '9' then some (c.toNat - '0'.toNat)
  else if 'a' ≤ c ∧ c ≤ 'f' then some (c.toNat - 'a'.toNat + 10)
  else if 'A' ≤ c ∧ c ≤ 'F' then some (c.toNat - 'A'.toNat + 10)
  else none

/-- The function `getu4`: the value of a leading `\uXXXX`, and what follows it. -/
def getu4 : List Char → Option (Nat × List Char)
  | '\\' :: 'u' :: a :: b :: c :: d :: rest =>
    match hexVal a, hexVal b, hexVal c, hexVal d with
    | some x, some y, some z, some w => some (((x * 16 + y) * 16 + z) * 16 + w, rest)
    | _, _, _, _ => none
  | _ => none

/-- The character a one-letter escape stands for. -/
def unescape (c : Char) : Option Char :=
  if c = '"' then some '"'
  else if c = '\\' then some '\\'
  else if c = '/' then some '/'
  else if c = 'b' then some (Char.ofNat 8)
  else if c = 'f' then some (Char.ofNat 12)
  else if c = 'n' then some '\n'
  else if c = 'r' then some '\r'
  else if c = 't' then some '\t'
  else none

/-- Read a string literal after its opening quote: the unquoted string and
the text after the closing quote. A character below U+0020 and an unknown
escape are errors; a `\u` escape of a surrogate half is joined with a
following low half when the two form a pair and is U+FFFD otherwise.
`acc` holds the characters read so far, last first. -/
def scanString : Nat → List Char → List Char → Option (String × List Char)
  | 0, _, _ => none
  | fuel + 1, acc, cs =>
    match cs with
    | [] => none
    | c :: rest =>
      if c = '"' then some (String.mk acc.reverse, rest)
      else if c = '\\' then
        match rest with
        | [] => none
        | e :: rest1 =>
          if e = 'u' then
            match getu4 cs with
            | none => none
            | some (rr, rest2) =>
              if 0xD800 ≤ rr ∧ rr < 0xE000 then
                match getu4 rest2 with
                | some (rr1, rest3) =>
                  if rr < 0xDC00 ∧ 0xDC00 ≤ rr1 ∧ rr1 < 0xE000 then
                    scanString fuel
                      (Char.ofNat ((rr - 0xD800) * 1024 + (rr1 - 0xDC00) + 0x10000) :: acc) rest3
                  else scanString fuel (Char.ofNat 0xFFFD :: acc) rest2
                | none => scanString fuel (Char.ofNat 0xFFFD :: acc) rest2
              else scanString fuel (Char.ofNat rr :: acc) rest2
          else
            match unescape e with
            | some d => scanString fuel (d :: acc) rest1
            | none => none
      else if c.toNat < 0x20 then none
      else scanString fuel (c :: acc) rest

/-- Skip zero or more digits. -/
def scanDigits : List Char → List Char
  | c :: cs => if c.isDigit then scanDigits cs else c :: cs
  | [] => []

/-- Skip one or more digits. -/
def scanDigits1 : List Char → Option (List Char)
  | d :: r => if d.isDigit then some (scanDigits r) else none
  | [] => none

/-- Skip an optional sign. -/
def skipSign : List Char → List Char
  | s :: r => if s = '+' ∨ s = '-' then r else s :: r
  | [] => []

/-- The optional exponent of a number: `[eE] [+-]? [0-9]+`. -/
def scanExp : List Char → Option (List Char)
  | e :: rest => if e = 'e' ∨ e = 'E' then scanDigits1 (skipSign rest) else some (e :: rest)
  | [] => some []

/-- The optional fraction of a number, `. [0-9]+`, then its optional
exponent. -/
def scanFrac : List Char → Option (List Char)
  | c :: rest =>
    if c = '.' then
      match scanDigits1 rest with
      | some r => scanExp r
      | none => none
    else scanExp (c :: rest)
  | [] => some []

/-- The digits of a number after its optional minus sign: `0 | [1-9][0-9]*`,
then the optional fraction and exponent. -/
def scanInt : List Char → Option (List Char)
  | c :: r =>
    if c = '0' then scanFrac r
    else if '1' ≤ c ∧ c ≤ '9' then scanFrac (scanDigits r)
    else none
  | [] => none

/-- Read a number: `-? (0 | [1-9][0-9]*) (. [0-9]+)? ([eE] [+-]? [0-9]+)?`;
the result is the text after it. -/
def scanNumber : List Char → Option (List Char)
  | c :: r => if c = '-' then scanInt r else scanInt (c :: r)
  | [] => none

/-- The nesting depth `encoding/json` accepts (since Go 1.15). -/
def maxNestingDepth : Nat := 10000

/-- The text after the given word, when the text starts with it. -/
def skipWord : List Char → List Char → Option (List Char)
  | [], cs => some cs
  | _ :: _, [] => none
  | w :: ws, c :: cs => if c = w then skipWord ws cs else none

mutual
/-- Read one value from text that starts at its first character; `depth` is
the number of arrays and objects open around it. -/
def parseValue : Nat → Nat → List Char → Option (JSON × List Char)
  | 0, _, _ => none
  | fuel + 1, depth, cs =>
    match cs with
    | [] => none
    | c :: rest =>
      if c = '\x7b' then
        if depth ≥ maxNestingDepth then none
        else
          match skipWS rest with
          | [] => none
          | c1 :: r =>
            if c1 = '\x7d' then some (JSON.obj [], r)
            else parseMembers fuel (depth + 1) (c1 :: r) []
      else if c = '[' then
        if depth ≥ maxNestingDepth then none
        else
          match skipWS rest with
          | [] => none
          | c1 :: r =>
            if c1 = ']' then some (JSON.arr [], r)
            else parseElems fuel (depth + 1) (c1 :: r) []
      else if c = '"' then
        match scanString (rest.length + 1) [] rest with
        | some (s, r) => some (JSON.str s, r)
        | none => none
      else if c = 't' then
        match skipWord ['r', 'u', 'e'] rest with
        | some r => some (JSON.bool true, r)
        | none => none
      else if c = 'f' then
        match skipWord ['a', 'l', 's', 'e'] rest with
        | some r => some (JSON.bool false, r)
        | none => none
      else if c = 'n' then
        match skipWord ['u', 'l', 'l'] rest with
        | some r => some (JSON.null, r)
        | none => none
      else if c = '-' ∨ c.isDigit then
        match scanNumber cs with
        | some r => some (JSON.num, r)
        | none => none
      else none
/-- Read the elements of an array after `[`, from the first character of an
element; `acc` holds the elements read so far, last first. -/
def parseElems : Nat → Nat → List Char → List JSON → Option (JSON × List Char)
  | 0, _, _, _ => none
  | fuel + 1, depth, cs, acc =>
    match parseValue fuel depth cs with
    | none => none
    | some (v, r) =>
      match skipWS r with
      | [] => none
      | c :: r1 =>
        if c = ',' then parseElems fuel depth (skipWS r1) (v :: acc)
        else if c = ']' then some (JSON.arr (v :: acc).reverse, r1)
        else none
/-- Read the members of an object after the opening brace, from the quote
that opens a key; `acc` holds the members read so far, last first. -/
def parseMembers : Nat → Nat → List Char → List (String × JSON) → Option (JSON × List Char)
  | 0, _, _, _ => none
  | fuel + 1, depth, cs, acc =>
    match cs with
    | [] => none
    | q :: rest =>
      if q = '"' then
        match scanString (rest.length + 1) [] rest with
        | none => none
        | some (key, r) =>
          match skipWS r with
          | [] => none
          | c :: r1 =>
            if c = ':' then
              match parseValue fuel depth (skipWS r1) with
              | none => none
              | some (v, r2) =>
                match skipWS r2 with
                | [] => none
                | c2 :: r3 =>
                  if c2 = ',' then parseMembers fuel depth (skipWS r3) ((key, v) :: acc)
                  else if c2 = '\x7d' then some (JSON.obj ((key, v) :: acc).reverse, r3)
                  else none
            else none
      else none
end

/-- The whole text as one JSON value, `none` when it is not valid JSON
(the error of `checkValid`). Twice the length of the text is fuel enough:
by `parseJSON_fuel` more fuel gives the same result. -/
def parseJSON (data : List UInt8) : Option JSON :=
  match parseValue (2 * (utf8Decode 0 data).length + 2) 0 (skipWS (utf8Decode 0 data)) with
  | some (v, rest) => if skipWS rest = [] then some v else none
  | none => none

structure registryCatalog where
  Repositories : List String
  deriving DecidableEq, Repr

structure registryTags where
  Name : String
  Tags : List String
  deriving DecidableEq, Repr

/-- Case folding of one character of a key, as far as it can reach an ASCII
letter: the capital letters, U+017F (long s) and U+212A (Kelvin sign). -/
def foldRune (c : Char) : Char :=
  if 'A' ≤ c ∧ c ≤ 'Z' then Char.ofNat (c.toNat + 32)
  else if c = Char.ofNat 0x17F then 's'
  else if c = Char.ofNat 0x212A then 'k'
  else c

/-- Whether an object key selects the struct field with the (lower-case
ASCII) JSON name `field`: an exact match, or a match under case folding. -/
def keyMatches (field key : String) : Bool :=
  key = field || key.toList.map foldRune = field.toList

/-- Store a JSON value into a Go `string` holding `old`: a string is stored,
`null` changes nothing, anything else is an `UnmarshalTypeError`. -/
def decodeString (old : String) : JSON → Option String
  | JSON.str s => some s
  | JSON.null => some old
  | _ => none

/-- A Go `[]string` while it is decoded into: the strings of its backing
array, and its length. The nil slice has no backing array. -/
structure Slice where
  backing : List String
  len : Nat
  deriving DecidableEq, Repr

/-- The elements of a slice. -/
def Slice.toList (s : Slice) : List String := s.backing.take s.len

/-- Store the elements of a JSON array into the slots of a slice, first slot
first: `old` holds what the slots hold before, a slot past the end of `old`
being new and empty. -/
def decodeElems : List JSON → List String → Option (List String)
  | [], _ => some []
  | e :: es, old =>
    match decodeString (old.headD "") e, decodeElems es old.tail with
    | some s, some ss => some (s :: ss)
    | _, _ => none

/-- Store a JSON value into a Go `[]string`: `null` gives the nil slice, the
empty array a new empty slice, anything but an array is an
`UnmarshalTypeError`. The elements of an array are stored one by one into
the slots of the slice as it is, which is grown where it is too short and
cut to the number of elements in the end: so a `null` element keeps what its
slot held, which matters when the same key occurs again. -/
def decodeStrings (s : Slice) : JSON → Option Slice
  | JSON.null => some { backing := [], len := 0 }
  | JSON.arr [] => some { backing := [], len := 0 }
  | JSON.arr elems =>
    match decodeElems elems s.backing with
    | some l => some { backing := l ++ s.backing.drop l.length, len := l.length }
    | none => none
  | _ => none

/-- Store the members of a JSON object into a `registryCatalog`, in order,
`repositories` being the field `Repositories` so far; a key that selects no
field is skipped. `none` stands for a type error: the decoder goes on after
one, but still returns it in the end. -/
def decodeCatalogMembers : List (String × JSON) → Slice → Option Slice
  | [], repositories => some repositories
  | (key, v) :: rest, repositories =>
    if keyMatches "repositories" key then
      match decodeStrings repositories v with
      | some l => decodeCatalogMembers rest l
      | none => none
    else decodeCatalogMembers rest repositories

/-- Store the members of a JSON object into a `registryTags`, in order,
`name` and `tags` being its two fields so far. -/
def decodeTagsMembers : List (String × JSON) → String → Slice → Option (String × Slice)
  | [], name, tags => some (name, tags)
  | (key, v) :: rest, name, tags =>
    if keyMatches "name" key then
      match decodeString name v with
      | some s => decodeTagsMembers rest s tags
      | none => none
    else if keyMatches "tags" key then
      match decodeStrings tags v with
      | some l => decodeTagsMembers rest name l
      | none => none
    else decodeTagsMembers rest name tags

/-- `json.Unmarshal(data, &catalog)` for a zero `catalog` of type
`registryCatalog`. -/
def UnmarshalCatalog (data : List UInt8) : Except GoError registryCatalog :=
  match parseJSON data with
  | none => Except.error GoError.jsonSyntax
  | some JSON.null => Except.ok { Repositories := [] }
  | some (JSON.obj members) =>
    match decodeCatalogMembers members { backing := [], len := 0 } with
    | some repositories => Except.ok { Repositories := repositories.toList }
    | none => Except.error GoError.jsonType
  | some _ => Except.error GoError.jsonType

/-- `json.Unmarshal(data, &tags)` for a zero `tags` of type `registryTags`. -/
def UnmarshalTags (data : List UInt8) : Except GoError registryTags :=
  match parseJSON data with
  | none => Except.error GoError.jsonSyntax
  | some JSON.null => Except.ok { Name := "", Tags := [] }
  | some (JSON.obj members) =>
    match decodeTagsMembers members "" { backing := [], len := 0 } with
    | some (name, tags) => Except.ok { Name := name, Tags := tags.toList }
    | none => Except.error GoError.jsonType
  | some _ => Except.error GoError.jsonType

/-! ## `regexp`: a fragment of the pattern language

`main` takes `regexp.Compile` from the `World`, so what is proved about it
holds for any pattern language. What the default pattern `.*` does is
settled on the model below, which covers the patterns made of literal
characters, `.` and the repetitions `*`, `+`, `?` (each optionally followed
by the non-greedy mark `?`): `.` is any character but a line feed, and
`MatchString` asks whether some substring matches. A pattern that uses
another operator is outside the fragment and the model refuses it. -/

inductive RE
  | fail
  | eps
  | lit (c : Char)
  | anyCharNotNL
  | cat (r s : RE)
  | alt (r s : RE)
  | star (r : RE)
  deriving DecidableEq, Repr

/-- Whether the expression matches the empty string. -/
def RE.nullable : RE → Bool
  | RE.fail => false
  | RE.eps => true
  | RE.lit _ => false
  | RE.anyCharNotNL => false
  | RE.cat r s => r.nullable && s.nullable
  | RE.alt r s => r.nullable || s.nullable
  | RE.star _ => true

/-- The expression for what may follow a first character `c`. -/
def RE.deriv (c : Char) : RE → RE
  | RE.fail => RE.fail
  | RE.eps => RE.fail
  | RE.lit d => if c = d then RE.eps else RE.fail
  | RE.anyCharNotNL => if c = '\n' then RE.fail else RE.eps
  | RE.cat r s =>
    if r.nullable then RE.alt (RE.cat (RE.deriv c r) s) (RE.deriv c s)
    else RE.cat (RE.deriv c r) s
  | RE.alt r s => RE.alt (RE.deriv c r) (RE.deriv c s)
  | RE.star r => RE.cat (RE.deriv c r) (RE.star r)

/-- Whether the expression matches at the start of the text. -/
def RE.matchesStart : RE → List Char → Bool
  | r, [] => r.nullable
  | r, c :: cs => r.nullable || RE.matchesStart (r.deriv c) cs

/-- Whether the expression matches somewhere in the text. -/
def RE.search (r : RE) : List Char → Bool
  | [] => r.matchesStart []
  | c :: cs => r.matchesStart (c :: cs) || RE.search r cs

/-- The last item read of a pattern: nothing yet, a single character or `.`
(it can take a repetition), or a repetition, with the text of its operator
and whether the non-greedy mark may still follow. -/
inductive Item
  | start
  | atom (r : RE)
  | repetition (r : RE) (text : List Char) (markNext : Bool)

/-- The expression read so far, with the last item. -/
def Item.close (done : RE) : Item → RE
  | Item.start => done
  | Item.atom r => RE.cat done r
  | Item.repetition r _ _ => RE.cat done r

/-- The operators of the pattern language that are outside the fragment. -/
def outsideFragment (c : Char) : Bool :=
  c = '\\' || c = '(' || c = ')' || c = '[' || c = ']' || c = '\x7b' || c = '\x7d'
    || c = '|' || c = '^' || c = '$'

/-- The text of a repetition operator `c` followed by `cs`: the operator with
the non-greedy mark, when one follows. -/
def operatorText (c : Char) (cs : List Char) : List Char :=
  if cs.head? = some '?' then [c, '?'] else [c]

/-- The error value of `regexp.Compile` for a syntax error of the given kind
at the given text. -/
def regexpError (kind : String) (text : List Char) : GoError :=
  GoError.msg ("error parsing regexp: " ++ kind ++ ": `" ++ String.mk text ++ "`")

/-- Read a pattern of the fragment, left to right; `none` when the pattern
is outside the fragment. A repetition operator right after a repetition, or
with nothing to repeat, is the syntax error `regexp.Compile` reports, with
the operators concerned as its text. -/
def parsePattern : List Char → RE → Item → Option (Except GoError RE)
  | [], done, last => some (Except.ok (last.close done))
  | c :: cs, done, last =>
    if c = '*' ∨ c = '+' ∨ c = '?' then
      match last with
      | Item.repetition r text markNext =>
        if markNext = true ∧ c = '?' then
          parsePattern cs done (Item.repetition r (text ++ ['?']) false)
        else
          some (Except.error
            (regexpError "invalid nested repetition operator" (text ++ operatorText c cs)))
      | Item.start =>
        some (Except.error
          (regexpError "missing argument to repetition operator" (operatorText c cs)))
      | Item.atom r =>
        parsePattern cs done
          (Item.repetition
            (if c = '*' then RE.star r else if c = '+' then RE.cat r (RE.star r)
             else RE.alt RE.eps r) [c] true)
    else if outsideFragment c then none
    else
      parsePattern cs (last.close done)
        (Item.atom (if c = '.' then RE.anyCharNotNL else RE.lit c))

/-- The model of `regexp.Compile`: `none` for a pattern outside the
fragment, about which the model says nothing. -/
def regexpCompile (pattern : String) : Option CompileResult :=
  match parsePattern pattern.toList RE.eps Item.start with
  | some (Except.ok r) => some (CompileResult.ok { MatchString := fun s => r.search s.toList })
  | some (Except.error err) => some (CompileResult.failed err)
  | none => none

/-- The outcome of `MatchString` on a pattern of the fragment: `none` when
the pattern is outside the fragment or does not compile. -/
def regexpMatch (pattern s : String) : Option Bool :=
  match regexpCompile pattern with
  | some (CompileResult.ok regex) => some (regex.MatchString s)
  | _ => none

/-! ## The engine invoker and the registry client

Each function takes the world and the trace so far and returns the trace it
leaves with its Go result. The global `config`, set once by `init`, is
passed as an argument. -/

/-- `exec.Command(argv[0], argv[1:]...).Run()`: the process and its outcome
are appended to the trace. -/
def cmdRun (w : World) (argv : List String) (tr : List Event) : List Event × Option GoError :=
  (tr ++ [Event.run argv (w.Run tr argv)], w.Run tr argv)

/-- The function `login` of main.go, lines 106-109. -/
def login (w : World) (config : applicationConfiguration) (url login password : String)
    (tr : List Event) : List Event × Option GoError :=
  cmdRun w [config.Executable, "login", "--username", login, "--password", password, url] tr

/-- Lines 115-134 of `catalog`: what the function returns for the outcome of
its `http.Get`. The result is the pair Go returns: the slice (nil is the
empty list) and the error. -/
def catalogResponse (url : String) : GetResult → List String × Option GoError
  | GetResult.failed err => ([], some err)
  | GetResult.response response =>
    if response.StatusCode ≠ 200 then
      ([], some (GoError.msg ("catalog " ++ url ++ " unexpected status: " ++ response.Status)))
    else
      match response.Body with
      | ReadResult.failed err => ([], some err)
      | ReadResult.data data =>
        match UnmarshalCatalog data with
        | Except.error err => ([], some err)
        | Except.ok catalog => (catalog.Repositories, none)

/-- The function `catalog` of main.go, lines 111-135. -/
def catalog (w : World) (url login password : String) (tr : List Event) :
    List Event × List String × Option GoError :=
  let queryUrl := "https://" ++ login ++ ":" ++ password ++ "@" ++ url ++ "/v2/_catalog"
  (tr ++ [Event.get queryUrl (w.Get tr queryUrl)], catalogResponse url (w.Get tr queryUrl))

/-- Lines 141-160 of `tags`: what the function returns for the outcome of
its `http.Get`. -/
def tagsResponse (image : String) : GetResult → List String × Option GoError
  | GetResult.failed err => ([], some err)
  | GetResult.response response =>
    if response.StatusCode ≠ 200 then
      ([], some (GoError.msg ("tags " ++ image ++ " unexpected status: " ++ response.Status)))
    else
      match response.Body with
      | ReadResult.failed err => ([], some err)
      | ReadResult.data data =>
        match UnmarshalTags data with
        | Except.error err => ([], some err)
        | Except.ok tags => (tags.Tags, none)

/-- The function `tags` of main.go, lines 137-161. -/
def tags (w : World) (url login password image : String) (tr : List Event) :
    List Event × List String × Option GoError :=
  let queryUrl :=
    "https://" ++ login ++ ":" ++ password ++ "@" ++ url ++ "/v2/" ++ image ++ "/tags/list"
  (tr ++ [Event.get queryUrl (w.Get tr queryUrl)], tagsResponse image (w.Get tr queryUrl))

/-- The function `copyImageTag` of main.go, lines 163-196. -/
def copyImageTag (w : World) (config : applicationConfiguration)
    (sourceUrl destinationUrl image tag : String) (tr : List Event) :
    List Event × Option GoError :=
  let sourceImageName := sourceUrl ++ "/" ++ image ++ ":" ++ tag
  let destinationImageName := destinationUrl ++ "/" ++ image ++ ":" ++ tag
  match cmdRun w [config.Executable, "image", "pull", "-q", sourceImageName]
      (tr ++ [Event.infof "pull %s" [Arg.str sourceImageName]]) with
  | (tr1, some err) => (tr1, some err)
  | (tr1, none) =>
    match cmdRun w [config.Executable, "image", "tag", sourceImageName, destinationImageName]
        (tr1 ++ [Event.infof "tag %s to %s"
          [Arg.str sourceImageName, Arg.str destinationImageName]]) with
    | (tr2, some err) => (tr2, some err)
    | (tr2, none) =>
      match cmdRun w [config.Executable, "image", "push", destinationImageName]
          (tr2 ++ [Event.infof "push %s" [Arg.str destinationImageName]]) with
      | (tr3, some err) => (tr3, some err)
      | (tr3, none) =>
        match cmdRun w [config.Executable, "image", "rm", sourceImageName, destinationImageName]
            (tr3 ++ [Event.infof "remove %s and %s"
              [Arg.str sourceImageName, Arg.str destinationImageName]]) with
        | (tr4, some err) => (tr4, some err)
        | (tr4, none) => (tr4, none)

/-! ## The orchestrator -/

/-- The loop over the tags of one image, main.go lines 98-102. -/
def mainTags (w : World) (config : applicationConfiguration) (image : String) :
    List String → List Event → List Event
  | [], tr => tr
  | tag :: rest, tr =>
    match copyImageTag w config config.SourceUrl config.DestinationUrl image tag tr with
    | (tr1, some _) =>
      mainTags w config image rest
        (tr1 ++ [Event.errorf "unable to copy %s:%s" [Arg.str image, Arg.str tag]])
    | (tr1, none) => mainTags w config image rest tr1

/-- The loop over the catalog, main.go lines 86-103. After a failed tag
listing the error is logged and the loop body goes on with the slice `tags`
returned, which is nil. -/
def mainImages (w : World) (config : applicationConfiguration) (regex : Regexp) :
    List String → List Event → List Event
  | [], tr => tr
  | image :: rest, tr =>
    if !regex.MatchString image then mainImages w config regex rest tr
    else
      match tags w config.SourceUrl config.SourceLogin config.SourcePassword image tr with
      | (tr1, tags, some err) =>
        mainImages w config regex rest
          (mainTags w config image tags
            (tr1 ++ [Event.errorf "unable to get tags for %s: %s" [Arg.str image, Arg.err err],
                     Event.printf "tags for %s: %s\n" [Arg.str image, Arg.strs tags]]))
      | (tr1, tags, none) =>
        mainImages w config regex rest
          (mainTags w config image tags
            (tr1 ++ [Event.printf "tags for %s: %s\n" [Arg.str image, Arg.strs tags]]))

/-- The function `main` of main.go, lines 68-104: the trace at the end of
the run and the way the process ends. -/
def main (w : World) (config : applicationConfiguration) (tr : List Event) : List Event × Exit :=
  match login w config config.SourceUrl config.SourceLogin config.SourcePassword tr with
  | (tr1, some err) =>
    (tr1 ++ [Event.fatalf "unable to login to source registry: %s" [Arg.err err]], Exit.fatal)
  | (tr1, none) =>
    match login w config config.DestinationUrl config.DestinationLogin
        config.DestinationPassword tr1 with
    | (tr2, some err) =>
      (tr2 ++ [Event.fatalf "unable to login to destination registry: %s" [Arg.err err]],
        Exit.fatal)
    | (tr2, none) =>
      match catalog w config.SourceUrl config.SourceLogin config.SourcePassword tr2 with
      | (tr3, _, some err) =>
        (tr3 ++ [Event.fatalf "unable to get source catalog: %s" [Arg.err err]], Exit.fatal)
      | (tr3, catalog, none) =>
        match w.Compile config.SourceInclude with
        | CompileResult.failed err =>
          (tr3 ++ [Event.fatalf "unable to compile include regex: %s" [Arg.err err]], Exit.fatal)
        | CompileResult.ok regex => (mainImages w config regex catalog tr3, Exit.returned)

/-! ## Reading a trace -/

/-- The argument vectors of the engine processes of a trace, in order. -/
def engineCalls (tr : List Event) : List (List String) :=
  tr.filterMap fun e =>
    match e with
    | Event.run argv _ => some argv
    | _ => none

/-- The engine processes of a trace with their outcomes, in order. -/
def engineResults (tr : List Event) : List (List String × Option GoError) :=
  tr.filterMap fun e =>
    match e with
    | Event.run argv result => some (argv, result)
    | _ => none

/-- The URLs of the HTTP requests of a trace, in order. -/
def httpCalls (tr : List Event) : List String :=
  tr.filterMap fun e =>
    match e with
    | Event.get url _ => some url
    | _ => none

/-- Whether an argument vector is an `image pull`. -/
def isPull (argv : List String) : Bool :=
  argv.tail.take 2 == ["image", "pull"]

/-- The `image pull` processes of a trace, in order. -/
def pullCalls (tr : List Event) : List (List String) :=
  (engineCalls tr).filter isPull

/-- The answers to the HTTP requests of a trace, in order. -/
def httpResults (tr : List Event) : List GetResult :=
  tr.filterMap fun e =>
    match e with
    | Event.get _ result => some result
    | _ => none

/-! ## Concrete worlds

Worlds whose answers are fixed in advance, used to run the program on
concrete inputs. -/

def demoConfig : applicationConfiguration :=
  { Executable := "docker"
    SourceUrl := "src.example"
    SourceLogin := "u"
    SourcePassword := "p"
    SourceInclude := ".*"
    DestinationUrl := "dst.example"
    DestinationLogin := "v"
    DestinationPassword := "q" }

/-- The world in which the engine processes listed in `failing` fail and all
others succeed, the registry answers the URLs of `routes` as listed and is
unreachable at any other URL, and patterns are compiled by the model of the
fragment. -/
def scriptedWorld (failing : List (List String)) (routes : List (String × GetResult)) : World :=
  { Run := fun _ argv => if argv ∈ failing then some (GoError.msg "exit status 1") else none
    Get := fun _ url =>
      match routes.lookup url with
      | some r => r
      | none => GetResult.failed (GoError.msg "connection refused")
    Compile := fun pattern =>
      match regexpCompile pattern with
      | some r => r
      | none => CompileResult.failed (GoError.msg "pattern outside the fragment") }

/-- The answer 200 with the given text as its body. -/
def ok200 (body : String) : GetResult :=
  GetResult.response
    { StatusCode := 200, Status := "200 OK", Body := ReadResult.data (utf8Bytes body) }

def notFound : GetResult :=
  GetResult.response
    { StatusCode := 404, Status := "404 Not Found",
      Body := ReadResult.data (utf8Bytes "not found") }

/-- A registry with the repositories `app` (tags `v1`, `v2`) and `lib` (whose
tag list is answered with 404); the push of `app:v1` fails. -/
def demoWorld : World :=
  scriptedWorld [["docker", "image", "push", "dst.example/app:v1"]]
    [("https://u:p@src.example/v2/_catalog",
        ok200 "\x7b\"repositories\":[\"app\",\"lib\"]\x7d"),
     ("https://u:p@src.example/v2/app/tags/list",
        ok200 "\x7b\"name\":\"app\",\"tags\":[\"v1\",\"v2\"]\x7d"),
     ("https://u:p@src.example/v2/lib/tags/list", notFound)]

/-- The demo configuration with the include pattern `ib/`. -/
def filterConfig : applicationConfiguration :=
  { Executable := "docker"
    SourceUrl := "src.example"
    SourceLogin := "u"
    SourcePassword := "p"
    SourceInclude := "ib/"
    DestinationUrl := "dst.example"
    DestinationLogin := "v"
    DestinationPassword := "q" }

/-- A registry with the repositories `app`, `lib/x`, `App` and `lib/x` again,
each with the single tag `v1`. -/
def filterWorld : World :=
  scriptedWorld []
    [("https://u:p@src.example/v2/_catalog",
        ok200 "\x7b\"repositories\":[\"app\",\"lib/x\",\"App\",\"lib/x\"]\x7d"),
     ("https://u:p@src.example/v2/app/tags/list", ok200 "\x7b\"name\":\"app\",\"tags\":[\"v1\"]\x7d"),
     ("https://u:p@src.example/v2/App/tags/list", ok200 "\x7b\"name\":\"App\",\"tags\":[\"v1\"]\x7d"),
     ("https://u:p@src.example/v2/lib/x/tags/list",
        ok200 "\x7b\"name\":\"lib/x\",\"tags\":[\"v1\"]\x7d")]

/-- A registry that answers the catalog request and the tag-list request for
`lib` with 404. -/
def notFoundWorld : World :=
  scriptedWorld []
    [("https://u:p@src.example/v2/_catalog", notFound),
     ("https://u:p@src.example/v2/lib/tags/list", notFound)]

/-- A registry whose catalog answer is the malformed body of one opening
brace. -/
def brokenCatalogWorld : World :=
  scriptedWorld [] [("https://u:p@src.example/v2/_catalog", ok200 "\x7b")]

/-- A registry with the repositories `lib` and `app`, where the tag list of
`lib` is cut short. -/
def brokenTagsWorld : World :=
  scriptedWorld []
    [("https://u:p@src.example/v2/_catalog", ok200 "\x7b\"repositories\":[\"lib\",\"app\"]\x7d"),
     ("https://u:p@src.example/v2/lib/tags/list", ok200 "\x7b\"name\":\"lib\",\"tags\":[\"v1\""),
     ("https://u:p@src.example/v2/app/tags/list",
        ok200 " \x7b \"name\" : \"app\", \"tags\" : [ \"v1\" ] \x7d\n")]

/-- The world in which only the pull of `app:v1` fails. -/
def pullFailsWorld : World :=
  scriptedWorld [["docker", "image", "pull", "-q", "src.example/app:v1"]] []

/-- The world in which only the tag of `app:v1` fails. -/
def tagFailsWorld : World :=
  scriptedWorld [["docker", "image", "tag", "src.example/app:v1", "dst.example/app:v1"]] []

/-- The world in which only the remove of `app:v1` fails. -/
def removeFailsWorld : World :=
  scriptedWorld [["docker", "image", "rm", "src.example/app:v1", "dst.example/app:v1"]] []

/-- A configuration file that sets everything but the include pattern. -/
def demoKeys : AppKeys :=
  { Executable := some "docker"
    SourceUrl := some "src.example"
    SourceLogin := some "u"
    SourcePassword := some "p"
    SourceInclude := none
    DestinationUrl := some "dst.example"
    DestinationLogin := some "v"
    DestinationPassword := some "q" }

/-! ## The JSON reader: fuel -/

theorem skipWS_length_le (cs : List Char) : (skipWS cs).length ≤ cs.length := by
  induction cs with
  | nil => simp [skipWS]
  | cons c cs ih =>
    simp only [skipWS]
    split
    · simp only [List.length_cons]; omega
    · exact Nat.le_refl _

theorem getu4_rest (cs : List Char) (n : Nat) (r : List Char) (h : getu4 cs = some (n, r)) :
    r.length + 6 = cs.length := by
  unfold getu4 at h
  split at h
  · split at h
    · simp only [Option.some.injEq, Prod.mk.injEq] at h
      obtain ⟨-, rfl⟩ := h
      simp
    · cases h
  · cases h

/-- The string reader consumes at least the closing quote. -/
theorem scanString_rest : ∀ (fuel : Nat) (acc cs : List Char) (s : String) (r : List Char),
    scanString fuel acc cs = some (s, r) → r.length < cs.length := by
  intro fuel
  induction fuel with
  | zero => intro acc cs s r h; simp [scanString] at h
  | succ fuel ih =>
    intro acc cs s r h
    rw [scanString.eq_def] at h
    simp only at h
    cases cs with
    | nil => cases h
    | cons c rest =>
      simp only at h
      split at h
      · simp only [Option.some.injEq, Prod.mk.injEq] at h
        obtain ⟨-, rfl⟩ := h
        simp
      · split at h
        · cases rest with
          | nil => cases h
          | cons e rest1 =>
            simp only at h
            split at h
            · split at h
              · cases h
              · rename_i rr rest2 hu
                have hrest := getu4_rest _ _ _ hu
                split at h
                · split at h
                  · rename_i rr1 rest3 hu1
                    have hrest1 := getu4_rest _ _ _ hu1
                    split at h
                    · have := ih _ _ _ _ h
                      omega
                    · have := ih _ _ _ _ h
                      omega
                  · have := ih _ _ _ _ h
                    omega
                · have := ih _ _ _ _ h
                  omega
            · split at h
              · have := ih _ _ _ _ h
                simp only [List.length_cons]
                omega
              · cases h
        · split at h
          · cases h
          · have := ih _ _ _ _ h
            simp only [List.length_cons]
            omega

/-- With fuel above the length of the text, the string reader gives the same
result with more fuel. -/
theorem scanString_fuel : ∀ (fuel : Nat) (acc cs : List Char), cs.length + 1 ≤ fuel →
    scanString (fuel + 1) acc cs = scanString fuel acc cs := by
  intro fuel
  induction fuel with
  | zero => intro acc cs h; omega
  | succ fuel ih =>
    intro acc cs h
    rw [scanString.eq_def (fuel + 1 + 1), scanString.eq_def (fuel + 1)]
    simp only
    cases cs with
    | nil => rfl
    | cons c rest =>
      simp only [List.length_cons] at h
      simp only
      by_cases h1 : c = '"'
      · simp only [h1, if_true]
      · simp only [h1, if_false]
        by_cases h2 : c = '\\'
        · simp only [h2, if_true]
          cases rest with
          | nil => rfl
          | cons e rest1 =>
            simp only [List.length_cons] at h
            simp only
            by_cases h3 : e = 'u'
            · simp only [h3, if_true]
              cases hu : getu4 ('\\' :: 'u' :: rest1) with
              | none => rfl
              | some p =>
                obtain ⟨rr, rest2⟩ := p
                have hrest := getu4_rest _ _ _ hu
                simp only [List.length_cons] at hrest
                simp only
                by_cases h4 : 0xD800 ≤ rr ∧ rr < 0xE000
                · simp only [h4, and_self, if_true]
                  cases hu1 : getu4 rest2 with
                  | none => exact ih _ _ (by omega)
                  | some p1 =>
                    obtain ⟨rr1, rest3⟩ := p1
                    have hrest1 := getu4_rest _ _ _ hu1
                    simp only
                    by_cases h5 : rr < 0xDC00 ∧ 0xDC00 ≤ rr1 ∧ rr1 < 0xE000
                    · simp only [h5, and_self, if_true]
                      exact ih _ _ (by omega)
                    · simp only [h5, if_false]
                      exact ih _ _ (by omega)
                · simp only [h4, if_false]
                  exact ih _ _ (by omega)
            · simp only [h3, if_false]
              cases unescape e with
              | none => rfl
              | some d => exact ih _ _ (by omega)
        · simp only [h2, if_false]
          by_cases h3 : c.toNat < 0x20
          · simp only [h3, if_true]
          · simp only [h3, if_false]
            exact ih _ _ (by omega)

/-- The fuel the value reader gives the string reader is enough. -/
theorem scanString_fuel_add (acc cs : List Char) (extra : Nat) :
    scanString (cs.length + 1 + extra) acc cs = scanString (cs.length + 1) acc cs := by
  induction extra with
  | zero => rfl
  | succ extra ih =>
    rw [← ih]
    exact scanString_fuel (cs.length + 1 + extra) acc cs (by omega)

theorem scanDigits_length_le (cs : List Char) : (scanDigits cs).length ≤ cs.length := by
  induction cs with
  | nil => simp [scanDigits]
  | cons c cs ih =>
    simp only [scanDigits]
    split
    · simp only [List.length_cons]; omega
    · exact Nat.le_refl _

theorem scanDigits1_rest (cs r : List Char) (h : scanDigits1 cs = some r) :
    r.length < cs.length := by
  cases cs with
  | nil => simp [scanDigits1] at h
  | cons d r1 =>
    simp only [scanDigits1] at h
    split at h
    · simp only [Option.some.injEq] at h
      subst h
      have := scanDigits_length_le r1
      simp only [List.length_cons]
      omega
    · cases h

theorem skipSign_length_le (cs : List Char) : (skipSign cs).length ≤ cs.length := by
  cases cs with
  | nil => simp [skipSign]
  | cons s r =>
    simp only [skipSign]
    split
    · simp only [List.length_cons]; omega
    · exact Nat.le_refl _

theorem scanExp_rest (cs r : List Char) (h : scanExp cs = some r) : r.length ≤ cs.length := by
  cases cs with
  | nil => simp only [scanExp, Option.some.injEq] at h; subst h; exact Nat.le_refl _
  | cons e rest =>
    simp only [scanExp] at h
    split at h
    · have := scanDigits1_rest _ _ h
      have := skipSign_length_le rest
      simp only [List.length_cons]
      omega
    · simp only [Option.some.injEq] at h
      subst h
      exact Nat.le_refl _

theorem scanFrac_rest (cs r : List Char) (h : scanFrac cs = some r) : r.length ≤ cs.length := by
  cases cs with
  | nil => simp only [scanFrac, Option.some.injEq] at h; subst h; exact Nat.le_refl _
  | cons c rest =>
    simp only [scanFrac] at h
    split at h
    · split at h
      · rename_i r1 hd
        have := scanDigits1_rest _ _ hd
        have := scanExp_rest _ _ h
        simp only [List.length_cons]
        omega
      · cases h
    · exact scanExp_rest _ _ h

theorem scanInt_rest (cs r : List Char) (h : scanInt cs = some r) : r.length < cs.length := by
  cases cs with
  | nil => simp [scanInt] at h
  | cons c r1 =>
    simp only [scanInt] at h
    split at h
    · have := scanFrac_rest _ _ h
      simp only [List.length_cons]
      omega
    · split at h
      · have := scanFrac_rest _ _ h
        have := scanDigits_length_le r1
        simp only [List.length_cons]
        omega
      · cases h

theorem scanNumber_rest (cs r : List Char) (h : scanNumber cs = some r) :
    r.length < cs.length := by
  cases cs with
  | nil => simp [scanNumber] at h
  | cons c r1 =>
    simp only [scanNumber] at h
    split at h
    · have := scanInt_rest _ _ h
      simp only [List.length_cons]
      omega
    · exact scanInt_rest _ _ h

theorem skipWord_rest : ∀ (word cs r : List Char), skipWord word cs = some r →
    r.length ≤ cs.length := by
  intro word
  induction word with
  | nil => intro cs r h; simp only [skipWord, Option.some.injEq] at h; subst h; exact Nat.le_refl _
  | cons w ws ih =>
    intro cs r h
    cases cs with
    | nil => simp [skipWord] at h
    | cons c cs =>
      simp only [skipWord] at h
      split at h
      · have := ih _ _ h
        simp only [List.length_cons]
        omega
      · cases h

/-- Each of the three readers consumes at least one character. -/
theorem parse_rest : ∀ (fuel : Nat),
    (∀ depth cs v r, parseValue fuel depth cs = some (v, r) → r.length < cs.length) ∧
    (∀ depth cs acc v r, parseElems fuel depth cs acc = some (v, r) → r.length < cs.length) ∧
    (∀ depth cs acc v r, parseMembers fuel depth cs acc = some (v, r) → r.length < cs.length) := by
  intro fuel
  induction fuel with
  | zero =>
    refine ⟨?_, ?_, ?_⟩
    · intro depth cs v r h; simp [parseValue] at h
    · intro depth cs acc v r h; simp [parseElems] at h
    · intro depth cs acc v r h; simp [parseMembers] at h
  | succ fuel ih =>
    obtain ⟨ihV, ihE, ihM⟩ := ih
    refine ⟨?_, ?_, ?_⟩
    · intro depth cs v r h
      cases cs with
      | nil => simp [parseValue] at h
      | cons c rest =>
        simp only [parseValue] at h
        have hws := skipWS_length_le rest
        split at h
        · split at h
          · cases h
          · split at h
            · cases h
            · rename_i c1 r1 heq
              rw [heq] at hws
              simp only [List.length_cons] at hws ⊢
              split at h
              · simp only [Option.some.injEq, Prod.mk.injEq] at h
                obtain ⟨-, rfl⟩ := h
                omega
              · have := ihM _ _ _ _ _ h
                simp only [List.length_cons] at this
                omega
        · split at h
          · split at h
            · cases h
            · split at h
              · cases h
              · rename_i c1 r1 heq
                rw [heq] at hws
                simp only [List.length_cons] at hws ⊢
                split at h
                · simp only [Option.some.injEq, Prod.mk.injEq] at h
                  obtain ⟨-, rfl⟩ := h
                  omega
                · have := ihE _ _ _ _ _ h
                  simp only [List.length_cons] at this
                  omega
          · split at h
            · split at h
              · rename_i s r1 hs
                simp only [Option.some.injEq, Prod.mk.injEq] at h
                obtain ⟨-, rfl⟩ := h
                have := scanString_rest _ _ _ _ _ hs
                simp only [List.length_cons]
                omega
              · cases h
            · split at h
              · split at h
                · rename_i r1 hw
                  simp only [Option.some.injEq, Prod.mk.injEq] at h
                  obtain ⟨-, rfl⟩ := h
                  have := skipWord_rest _ _ _ hw
                  simp only [List.length_cons]
                  omega
                · cases h
              · split at h
                · split at h
                  · rename_i r1 hw
                    simp only [Option.some.injEq, Prod.mk.injEq] at h
                    obtain ⟨-, rfl⟩ := h
                    have := skipWord_rest _ _ _ hw
                    simp only [List.length_cons]
                    omega
                  · cases h
                · split at h
                  · split at h
                    · rename_i r1 hw
                      simp only [Option.some.injEq, Prod.mk.injEq] at h
                      obtain ⟨-, rfl⟩ := h
                      have := skipWord_rest _ _ _ hw
                      simp only [List.length_cons]
                      omega
                    · cases h
                  · split at h
                    · split at h
                      · rename_i r1 hn
                        simp only [Option.some.injEq, Prod.mk.injEq] at h
                        obtain ⟨-, rfl⟩ := h
                        exact scanNumber_rest _ _ hn
                      · cases h
                    · cases h
    · intro depth cs acc v r h
      simp only [parseElems] at h
      split at h
      · cases h
      · rename_i v1 r1 hv
        have h1 := ihV _ _ _ _ hv
        have hws := skipWS_length_le r1
        split at h
        · cases h
        · rename_i c r2 heq
          rw [heq] at hws
          simp only [List.length_cons] at hws
          split at h
          · have := ihE _ _ _ _ _ h
            have := skipWS_length_le r2
            omega
          · split at h
            · simp only [Option.some.injEq, Prod.mk.injEq] at h
              obtain ⟨-, rfl⟩ := h
              omega
            · cases h
    · intro depth cs acc v r h
      cases cs with
      | nil => simp [parseMembers] at h
      | cons q rest =>
        simp only [parseMembers] at h
        split at h
        · split at h
          · cases h
          · rename_i key r1 hs
            have h1 := scanString_rest _ _ _ _ _ hs
            have hws := skipWS_length_le r1
            split at h
            · cases h
            · rename_i c r2 heq
              rw [heq] at hws
              simp only [List.length_cons] at hws
              split at h
              · split at h
                · cases h
                · rename_i v1 r3 hv
                  have h2 := ihV _ _ _ _ hv
                  have hws2 := skipWS_length_le r2
                  have hws3 := skipWS_length_le r3
                  split at h
                  · cases h
                  · rename_i c2 r4 heq2
                    rw [heq2] at hws3
                    simp only [List.length_cons] at hws3 ⊢
                    split at h
                    · have := ihM _ _ _ _ _ h
                      have := skipWS_length_le r4
                      omega
                    · split at h
                      · simp only [Option.some.injEq, Prod.mk.injEq] at h
                        obtain ⟨-, rfl⟩ := h
                        omega
                      · cases h
              · cases h
        · cases h

/-- With fuel above twice the length of the text, each of the three readers
gives the same result with more fuel. -/
theorem parse_fuel : ∀ (fuel : Nat),
    (∀ depth cs, 2 * cs.length + 1 ≤ fuel →
      parseValue (fuel + 1) depth cs = parseValue fuel depth cs) ∧
    (∀ depth cs acc, 2 * cs.length + 2 ≤ fuel →
      parseElems (fuel + 1) depth cs acc = parseElems fuel depth cs acc) ∧
    (∀ depth cs acc, 2 * cs.length + 2 ≤ fuel →
      parseMembers (fuel + 1) depth cs acc = parseMembers fuel depth cs acc) := by
  intro fuel
  induction fuel with
  | zero =>
    refine ⟨?_, ?_, ?_⟩
    · intro depth cs h; omega
    · intro depth cs acc h; omega
    · intro depth cs acc h; omega
  | succ fuel ih =>
    obtain ⟨ihV, ihE, ihM⟩ := ih
    refine ⟨?_, ?_, ?_⟩
    · intro depth cs h
      cases cs with
      | nil => simp [parseValue]
      | cons c rest =>
        simp only [List.length_cons] at h
        have hws := skipWS_length_le rest
        simp only [parseValue]
        by_cases h1 : c = '\x7b'
        · simp only [h1, if_true]
          split
          · rfl
          · cases hs : skipWS rest with
            | nil => rfl
            | cons c1 r =>
              rw [hs] at hws
              simp only [List.length_cons] at hws
              simp only
              split
              · rfl
              · exact ihM _ _ _ (by simp only [List.length_cons]; omega)
        · simp only [h1, if_false]
          by_cases h2 : c = '['
          · simp only [h2, if_true]
            split
            · rfl
            · cases hs : skipWS rest with
              | nil => rfl
              | cons c1 r =>
                rw [hs] at hws
                simp only [List.length_cons] at hws
                simp only
                split
                · rfl
                · exact ihE _ _ _ (by simp only [List.length_cons]; omega)
          · simp only [h2, if_false]
    · intro depth cs acc h
      simp only [parseElems]
      cases cs with
      | nil =>
        have h0 : ∀ f, parseValue f depth [] = none := by
          intro f; cases f <;> simp [parseValue]
        simp [h0]
      | cons c0 rest =>
        simp only [List.length_cons] at h
        rw [ihV depth (c0 :: rest) (by simp only [List.length_cons]; omega)]
        cases hv : parseValue fuel depth (c0 :: rest) with
        | none => rfl
        | some p =>
          obtain ⟨v, r⟩ := p
          have h1 := (parse_rest fuel).1 _ _ _ _ hv
          simp only [List.length_cons] at h1
          have hws := skipWS_length_le r
          simp only
          cases hs : skipWS r with
          | nil => rfl
          | cons c r1 =>
            rw [hs] at hws
            simp only [List.length_cons] at hws
            simp only
            split
            · have := skipWS_length_le r1
              exact ihE _ _ _ (by omega)
            · rfl
    · intro depth cs acc h
      cases cs with
      | nil => simp [parseMembers]
      | cons q rest =>
        simp only [List.length_cons] at h
        simp only [parseMembers]
        split
        · cases hs : scanString (rest.length + 1) [] rest with
          | none => rfl
          | some p =>
            obtain ⟨key, r⟩ := p
            have h1 := scanString_rest _ _ _ _ _ hs
            have hws := skipWS_length_le r
            simp only
            cases hs1 : skipWS r with
            | nil => rfl
            | cons c r1 =>
              rw [hs1] at hws
              simp only [List.length_cons] at hws
              simp only
              split
              · have hws1 := skipWS_length_le r1
                rw [ihV depth (skipWS r1) (by omega)]
                cases hv : parseValue fuel depth (skipWS r1) with
                | none => rfl
                | some p2 =>
                  obtain ⟨v, r2⟩ := p2
                  have h2 := (parse_rest fuel).1 _ _ _ _ hv
                  have hws2 := skipWS_length_le r2
                  simp only
                  cases hs2 : skipWS r2 with
                  | nil => rfl
                  | cons c2 r3 =>
                    rw [hs2] at hws2
                    simp only [List.length_cons] at hws2
                    simp only
                    split
                    · have := skipWS_length_le r3
                      exact ihM _ _ _ (by omega)
                    · rfl
              · rfl
        · rfl

/-- The fuel `parseJSON` gives is enough: the reader gives the same result
with any larger amount. -/
theorem parseJSON_fuel (data : List UInt8) (extra : Nat) :
    parseValue (2 * (utf8Decode 0 data).length + 2 + extra) 0 (skipWS (utf8Decode 0 data)) =
      parseValue (2 * (utf8Decode 0 data).length + 2) 0 (skipWS (utf8Decode 0 data)) := by
  induction extra with
  | zero => rfl
  | succ extra ih =>
    rw [← ih]
    have hws := skipWS_length_le (utf8Decode 0 data)
    exact (parse_fuel (2 * (utf8Decode 0 data).length + 2 + extra)).1 0 _ (by omega)

/-! ## The two library models on concrete inputs -/

set_option maxRecDepth 100000 in
/-- What the model of `json.Unmarshal` does on some bodies: members are
matched without regard to case, unknown members are skipped, a missing
member leaves the field empty, `null` is accepted, escapes are decoded; a
value of another type is a type error; a trailing comma, a leading zero, a
raw line feed in a string and a cut-off text are syntax errors; when a key
occurs again, a `null` element keeps what its slot held; a byte that is not
UTF-8 is read as U+FFFD inside a string and is a syntax error outside. -/
theorem json_model_examples :
    UnmarshalCatalog (utf8Bytes "\x7b\"repositories\": [\"a\", \"b/c\"]\x7d") =
      Except.ok { Repositories := ["a", "b/c"] } ∧
    UnmarshalCatalog (utf8Bytes "\x7b\"Repositories\": [\"x\"], \"next\": \x7b\"n\": [1, -2.5e3, true]\x7d\x7d") =
      Except.ok { Repositories := ["x"] } ∧
    UnmarshalCatalog (utf8Bytes "\x7b\x7d") = Except.ok { Repositories := [] } ∧
    UnmarshalCatalog (utf8Bytes " null ") = Except.ok { Repositories := [] } ∧
    UnmarshalCatalog (utf8Bytes "\x7b\"repositories\": [\"caf\\u00e9\", \"a\\/b\"]\x7d") =
      Except.ok { Repositories := ["café", "a/b"] } ∧
    UnmarshalCatalog (utf8Bytes "\x7b\"repositories\": [1]\x7d") = Except.error GoError.jsonType ∧
    UnmarshalCatalog (utf8Bytes "[\"a\"]") = Except.error GoError.jsonType ∧
    UnmarshalCatalog (utf8Bytes "\x7b\"repositories\": [\"a\",]\x7d") = Except.error GoError.jsonSyntax ∧
    UnmarshalCatalog (utf8Bytes "\x7b\"n\": 01\x7d") = Except.error GoError.jsonSyntax ∧
    UnmarshalCatalog (utf8Bytes "\x7b\"repositories\": [\"a\nb\"]\x7d") = Except.error GoError.jsonSyntax ∧
    UnmarshalCatalog (utf8Bytes "") = Except.error GoError.jsonSyntax ∧
    UnmarshalTags (utf8Bytes "\x7b\"name\":\"img\",\"tags\":[\"v1\",\"v2\"]\x7d") =
      Except.ok { Name := "img", Tags := ["v1", "v2"] } ∧
    UnmarshalTags (utf8Bytes "\x7b\"name\":\"img\",\"tags\":null\x7d") =
      Except.ok { Name := "img", Tags := [] } ∧
    UnmarshalTags (utf8Bytes "\x7b\"name\":5,\"tags\":[\"v1\"]\x7d") =
      Except.error GoError.jsonType ∧
    UnmarshalTags (utf8Bytes "\x7b\"tags\":[\"a\",\"b\"],\"tags\":[null,\"c\"]\x7d") =
      Except.ok { Name := "", Tags := ["a", "c"] } ∧
    UnmarshalCatalog (utf8Bytes "\x7b\"repositories\":[\"a\"],\"repositories\":[null]\x7d") =
      Except.ok { Repositories := ["a"] } ∧
    UnmarshalCatalog (utf8Bytes "\x7b\"repositories\":[\"a\",\"b\"],\"repositories\":[\"x\"],\"repositories\":[null,null]\x7d") =
      Except.ok { Repositories := ["x", "b"] } ∧
    UnmarshalCatalog [0x7b, 0x22, 0x72, 0xff, 0x22, 0x3a, 0x31, 0x7d] =
      Except.ok { Repositories := [] } ∧
    UnmarshalCatalog (utf8Bytes "\x7b\"repositories\":[\"" ++ [0xc3, 0x28] ++ utf8Bytes "\"]\x7d") =
      Except.ok { Repositories := [String.mk [Char.ofNat 0xFFFD, '(']] } ∧
    UnmarshalCatalog (utf8Bytes "\x7b\x7d" ++ [0xff]) = Except.error GoError.jsonSyntax := by
  refine ⟨?_, ?_, ?_, ?_, ?_, ?_, ?_, ?_, ?_, ?_, ?_, ?_, ?_, ?_, ?_, ?_, ?_, ?_, ?_, ?_⟩ <;> rfl

/-- What the model of `regexp` does on some patterns: the search is
unanchored and case-sensitive, `.` does not match a line feed, and a
repetition operator with nothing before it, or after another one, does not
compile. -/
theorem regexp_model_examples :
    regexpMatch "ab+c" "xxabbbcyy" = some true ∧
    regexpMatch "ab+c" "xxacyy" = some false ∧
    regexpMatch "lib/.*" "my/lib/x" = some true ∧
    regexpMatch "Lib" "lib" = some false ∧
    regexpMatch "a.c" "a\nc" = some false ∧
    regexpMatch ".+" "\n" = some false ∧
    regexpMatch ".*" "\n" = some true ∧
    regexpMatch "a*?b" "xaab" = some true ∧
    regexpMatch "*a" "a" = none ∧
    regexpMatch "a|b" "a" = none ∧
    (regexpCompile "*a").map (fun r => match r with
      | CompileResult.ok _ => none
      | CompileResult.failed e => some e) = some (some (GoError.msg
        "error parsing regexp: missing argument to repetition operator: `*`")) ∧
    (regexpCompile "a**?b").map (fun r => match r with
      | CompileResult.ok _ => none
      | CompileResult.failed e => some e) = some (some (GoError.msg
        "error parsing regexp: invalid nested repetition operator: `**?`")) ∧
    (regexpCompile "a+?*").map (fun r => match r with
      | CompileResult.ok _ => none
      | CompileResult.failed e => some e) = some (some (GoError.msg
        "error parsing regexp: invalid nested repetition operator: `+?*`")) := by
  refine ⟨?_, ?_, ?_, ?_, ?_, ?_, ?_, ?_, ?_, ?_, ?_, ?_, ?_⟩ <;> decide

/-! ## Lemmas on traces -/

theorem engineResults_append (a b : List Event) :
    engineResults (a ++ b) = engineResults a ++ engineResults b := by
  simp [engineResults, List.filterMap_append]

theorem engineCalls_append (a b : List Event) :
    engineCalls (a ++ b) = engineCalls a ++ engineCalls b := by
  simp [engineCalls, List.filterMap_append]

theorem pullCalls_append (a b : List Event) :
    pullCalls (a ++ b) = pullCalls a ++ pullCalls b := by
  simp [pullCalls, engineCalls_append]

theorem httpCalls_append (a b : List Event) :
    httpCalls (a ++ b) = httpCalls a ++ httpCalls b := by
  simp [httpCalls, List.filterMap_append]

theorem httpResults_append (a b : List Event) :
    httpResults (a ++ b) = httpResults a ++ httpResults b := by
  simp [httpResults, List.filterMap_append]

theorem httpCalls_nil : httpCalls [] = [] := rfl

theorem httpResults_nil : httpResults [] = [] := rfl

theorem engineCalls_nil : engineCalls [] = [] := rfl

theorem pullCalls_nil : pullCalls [] = [] := rfl

theorem httpCalls_cons (e : Event) (tr : List Event) :
    httpCalls (e :: tr) =
      (match e with
        | Event.get url _ => [url]
        | _ => []) ++ httpCalls tr := by
  cases e <;> rfl

theorem httpResults_cons (e : Event) (tr : List Event) :
    httpResults (e :: tr) =
      (match e with
        | Event.get _ result => [result]
        | _ => []) ++ httpResults tr := by
  cases e <;> rfl

theorem engineCalls_cons (e : Event) (tr : List Event) :
    engineCalls (e :: tr) =
      (match e with
        | Event.run argv _ => [argv]
        | _ => []) ++ engineCalls tr := by
  cases e <;> rfl

theorem pullCalls_cons (e : Event) (tr : List Event) :
    pullCalls (e :: tr) =
      (match e with
        | Event.run argv _ => if isPull argv then [argv] else []
        | _ => []) ++ pullCalls tr := by
  cases e <;> simp [pullCalls, engineCalls_cons]
  split <;> simp_all [List.filter_cons]

theorem engineCalls_eq_map (tr : List Event) :
    engineCalls tr = (engineResults tr).map Prod.fst := by
  induction tr with
  | nil => rfl
  | cons e tr ih =>
    cases e <;> simp_all [engineCalls, engineResults, List.filterMap_cons]

theorem decodeElems_strings (l : List String) :
    ∀ old, decodeElems (l.map JSON.str) old = some l := by
  induction l with
  | nil => intro old; rfl
  | cons x xs ih => intro old; simp [decodeElems, decodeString, ih]

/-- An array of strings, stored into the nil slice, gives these strings. -/
theorem decodeStrings_strings (l : List String) :
    ∃ s, decodeStrings { backing := [], len := 0 } (JSON.arr (l.map JSON.str)) = some s ∧
      s.toList = l := by
  cases l with
  | nil => exact ⟨_, rfl, rfl⟩
  | cons x xs =>
    refine ⟨{ backing := x :: xs, len := (x :: xs).length }, ?_, by simp [Slice.toList]⟩
    simp only [List.map_cons, decodeStrings]
    rw [← List.map_cons, decodeElems_strings]
    simp

/-- An expression that matches the empty string is found in every text. -/
theorem RE.search_of_nullable (r : RE) (h : r.nullable = true) (cs : List Char) :
    r.search cs = true := by
  cases cs with
  | nil => simp [RE.search, RE.matchesStart, h]
  | cons c cs => simp [RE.search, RE.matchesStart, h]

/-- What one call of `copyImageTag` adds to the trace: no HTTP request, and
the engine processes up to the first that fails, whose error is returned. -/
theorem copyImageTag_events (w : World) (config : applicationConfiguration)
    (sourceUrl destinationUrl image tag : String) (tr : List Event) :
    ∃ new, (copyImageTag w config sourceUrl destinationUrl image tag tr).1 = tr ++ new ∧
      httpCalls new = [] ∧ httpResults new = [] ∧
      ((∃ e, (copyImageTag w config sourceUrl destinationUrl image tag tr).2 = some e ∧
          engineResults new =
            [([config.Executable, "image", "pull", "-q", sourceUrl ++ "/" ++ image ++ ":" ++ tag],
              some e)]) ∨
       (∃ e, (copyImageTag w config sourceUrl destinationUrl image tag tr).2 = some e ∧
          engineResults new =
            [([config.Executable, "image", "pull", "-q", sourceUrl ++ "/" ++ image ++ ":" ++ tag],
              none),
             ([config.Executable, "image", "tag", sourceUrl ++ "/" ++ image ++ ":" ++ tag,
               destinationUrl ++ "/" ++ image ++ ":" ++ tag], some e)]) ∨
       (∃ e, (copyImageTag w config sourceUrl destinationUrl image tag tr).2 = some e ∧
          engineResults new =
            [([config.Executable, "image", "pull", "-q", sourceUrl ++ "/" ++ image ++ ":" ++ tag],
              none),
             ([config.Executable, "image", "tag", sourceUrl ++ "/" ++ image ++ ":" ++ tag,
               destinationUrl ++ "/" ++ image ++ ":" ++ tag], none),
             ([config.Executable, "image", "push", destinationUrl ++ "/" ++ image ++ ":" ++ tag],
              some e)]) ∨
       (∃ o, (copyImageTag w config sourceUrl destinationUrl image tag tr).2 = o ∧
          engineResults new =
            [([config.Executable, "image", "pull", "-q", sourceUrl ++ "/" ++ image ++ ":" ++ tag],
              none),
             ([config.Executable, "image", "tag", sourceUrl ++ "/" ++ image ++ ":" ++ tag,
               destinationUrl ++ "/" ++ image ++ ":" ++ tag], none),
             ([config.Executable, "image", "push", destinationUrl ++ "/" ++ image ++ ":" ++ tag],
              none),
             ([config.Executable, "image", "rm", sourceUrl ++ "/" ++ image ++ ":" ++ tag,
               destinationUrl ++ "/" ++ image ++ ":" ++ tag], o)])) := by
  simp only [copyImageTag, cmdRun]
  split
  · rename_i tr1 err h
    simp only [Prod.mk.injEq] at h
    obtain ⟨rfl, h⟩ := h
    simp only [h]
    simp only [List.append_assoc]
    refine ⟨_, rfl, ?_, ?_, Or.inl ⟨err, rfl, ?_⟩⟩ <;>
      simp [httpCalls, httpResults, engineResults]
  · rename_i tr1 h
    simp only [Prod.mk.injEq] at h
    obtain ⟨rfl, h1⟩ := h
    simp only [h1]
    split
    · rename_i tr2 err h
      simp only [Prod.mk.injEq] at h
      obtain ⟨rfl, h⟩ := h
      simp only [h]
      simp only [List.append_assoc]
      refine ⟨_, rfl, ?_, ?_, Or.inr (Or.inl ⟨err, rfl, ?_⟩)⟩ <;>
        simp [httpCalls, httpResults, engineResults]
    · rename_i tr2 h
      simp only [Prod.mk.injEq] at h
      obtain ⟨rfl, h2⟩ := h
      simp only [h2]
      split
      · rename_i tr3 err h
        simp only [Prod.mk.injEq] at h
        obtain ⟨rfl, h⟩ := h
        simp only [h]
        simp only [List.append_assoc]
        refine ⟨_, rfl, ?_, ?_, Or.inr (Or.inr (Or.inl ⟨err, rfl, ?_⟩))⟩ <;>
          simp [httpCalls, httpResults, engineResults]
      · rename_i tr3 h
        simp only [Prod.mk.injEq] at h
        obtain ⟨rfl, h3⟩ := h
        simp only [h3]
        split
        · rename_i tr4 err h
          simp only [Prod.mk.injEq] at h
          obtain ⟨rfl, h⟩ := h
          simp only [h]
          simp only [List.append_assoc]
          refine ⟨_, rfl, ?_, ?_, Or.inr (Or.inr (Or.inr ⟨some err, rfl, ?_⟩))⟩ <;>
            simp [httpCalls, httpResults, engineResults]
        · rename_i tr4 h
          simp only [Prod.mk.injEq] at h
          obtain ⟨rfl, h⟩ := h
          simp only [h]
          simp only [List.append_assoc]
          refine ⟨_, rfl, ?_, ?_, Or.inr (Or.inr (Or.inr ⟨none, rfl, ?_⟩))⟩ <;>
            simp [httpCalls, httpResults, engineResults]

/-- The result of `copyImageTag`, from the outcomes the world gives to its
engine processes: the whole trace and the value returned, when the pull
fails, when the tag fails, when the push fails, and when these three
succeed. -/
theorem copyImageTag_eq (w : World) (config : applicationConfiguration)
    (sourceUrl destinationUrl image tag : String) (tr : List Event) :
    (∀ e, w.Run (tr ++ [Event.infof "pull %s" [Arg.str (sourceUrl ++ "/" ++ image ++ ":" ++ tag)]]) [config.Executable, "image", "pull", "-q", sourceUrl ++ "/" ++ image ++ ":" ++ tag] = some e →
      copyImageTag w config sourceUrl destinationUrl image tag tr =
        (tr ++ [Event.infof "pull %s" [Arg.str (sourceUrl ++ "/" ++ image ++ ":" ++ tag)], Event.run [config.Executable, "image", "pull", "-q", sourceUrl ++ "/" ++ image ++ ":" ++ tag] (some e)], some e)) ∧
    (∀ e, w.Run (tr ++ [Event.infof "pull %s" [Arg.str (sourceUrl ++ "/" ++ image ++ ":" ++ tag)]]) [config.Executable, "image", "pull", "-q", sourceUrl ++ "/" ++ image ++ ":" ++ tag] = none →
      w.Run (tr ++ [Event.infof "pull %s" [Arg.str (sourceUrl ++ "/" ++ image ++ ":" ++ tag)], Event.run [config.Executable, "image", "pull", "-q", sourceUrl ++ "/" ++ image ++ ":" ++ tag] none, Event.infof "tag %s to %s" [Arg.str (sourceUrl ++ "/" ++ image ++ ":" ++ tag), Arg.str (destinationUrl ++ "/" ++ image ++ ":" ++ tag)]]) [config.Executable, "image", "tag", sourceUrl ++ "/" ++ image ++ ":" ++ tag, destinationUrl ++ "/" ++ image ++ ":" ++ tag] = some e →
      copyImageTag w config sourceUrl destinationUrl image tag tr =
        (tr ++ [Event.infof "pull %s" [Arg.str (sourceUrl ++ "/" ++ image ++ ":" ++ tag)], Event.run [config.Executable, "image", "pull", "-q", sourceUrl ++ "/" ++ image ++ ":" ++ tag] none, Event.infof "tag %s to %s" [Arg.str (sourceUrl ++ "/" ++ image ++ ":" ++ tag), Arg.str (destinationUrl ++ "/" ++ image ++ ":" ++ tag)], Event.run [config.Executable, "image", "tag", sourceUrl ++ "/" ++ image ++ ":" ++ tag, destinationUrl ++ "/" ++ image ++ ":" ++ tag] (some e)], some e)) ∧
    (∀ e, w.Run (tr ++ [Event.infof "pull %s" [Arg.str (sourceUrl ++ "/" ++ image ++ ":" ++ tag)]]) [config.Executable, "image", "pull", "-q", sourceUrl ++ "/" ++ image ++ ":" ++ tag] = none →
      w.Run (tr ++ [Event.infof "pull %s" [Arg.str (sourceUrl ++ "/" ++ image ++ ":" ++ tag)], Event.run [config.Executable, "image", "pull", "-q", sourceUrl ++ "/" ++ image ++ ":" ++ tag] none, Event.infof "tag %s to %s" [Arg.str (sourceUrl ++ "/" ++ image ++ ":" ++ tag), Arg.str (destinationUrl ++ "/" ++ image ++ ":" ++ tag)]]) [config.Executable, "image", "tag", sourceUrl ++ "/" ++ image ++ ":" ++ tag, destinationUrl ++ "/" ++ image ++ ":" ++ tag] = none →
      w.Run (tr ++ [Event.infof "pull %s" [Arg.str (sourceUrl ++ "/" ++ image ++ ":" ++ tag)], Event.run [config.Executable, "image", "pull", "-q", sourceUrl ++ "/" ++ image ++ ":" ++ tag] none, Event.infof "tag %s to %s" [Arg.str (sourceUrl ++ "/" ++ image ++ ":" ++ tag), Arg.str (destinationUrl ++ "/" ++ image ++ ":" ++ tag)], Event.run [config.Executable, "image", "tag", sourceUrl ++ "/" ++ image ++ ":" ++ tag, destinationUrl ++ "/" ++ image ++ ":" ++ tag] none, Event.infof "push %s" [Arg.str (destinationUrl ++ "/" ++ image ++ ":" ++ tag)]]) [config.Executable, "image", "push", destinationUrl ++ "/" ++ image ++ ":" ++ tag] = some e →
      copyImageTag w config sourceUrl destinationUrl image tag tr =
        (tr ++ [Event.infof "pull %s" [Arg.str (sourceUrl ++ "/" ++ image ++ ":" ++ tag)], Event.run [config.Executable, "image", "pull", "-q", sourceUrl ++ "/" ++ image ++ ":" ++ tag] none, Event.infof "tag %s to %s" [Arg.str (sourceUrl ++ "/" ++ image ++ ":" ++ tag), Arg.str (destinationUrl ++ "/" ++ image ++ ":" ++ tag)], Event.run [config.Executable, "image", "tag", sourceUrl ++ "/" ++ image ++ ":" ++ tag, destinationUrl ++ "/" ++ image ++ ":" ++ tag] none, Event.infof "push %s" [Arg.str (destinationUrl ++ "/" ++ image ++ ":" ++ tag)],
          Event.run [config.Executable, "image", "push", destinationUrl ++ "/" ++ image ++ ":" ++ tag] (some e)], some e)) ∧
    (w.Run (tr ++ [Event.infof "pull %s" [Arg.str (sourceUrl ++ "/" ++ image ++ ":" ++ tag)]]) [config.Executable, "image", "pull", "-q", sourceUrl ++ "/" ++ image ++ ":" ++ tag] = none →
      w.Run (tr ++ [Event.infof "pull %s" [Arg.str (sourceUrl ++ "/" ++ image ++ ":" ++ tag)], Event.run [config.Executable, "image", "pull", "-q", sourceUrl ++ "/" ++ image ++ ":" ++ tag] none, Event.infof "tag %s to %s" [Arg.str (sourceUrl ++ "/" ++ image ++ ":" ++ tag), Arg.str (destinationUrl ++ "/" ++ image ++ ":" ++ tag)]]) [config.Executable, "image", "tag", sourceUrl ++ "/" ++ image ++ ":" ++ tag, destinationUrl ++ "/" ++ image ++ ":" ++ tag] = none →
      w.Run (tr ++ [Event.infof "pull %s" [Arg.str (sourceUrl ++ "/" ++ image ++ ":" ++ tag)], Event.run [config.Executable, "image", "pull", "-q", sourceUrl ++ "/" ++ image ++ ":" ++ tag] none, Event.infof "tag %s to %s" [Arg.str (sourceUrl ++ "/" ++ image ++ ":" ++ tag), Arg.str (destinationUrl ++ "/" ++ image ++ ":" ++ tag)], Event.run [config.Executable, "image", "tag", sourceUrl ++ "/" ++ image ++ ":" ++ tag, destinationUrl ++ "/" ++ image ++ ":" ++ tag] none, Event.infof "push %s" [Arg.str (destinationUrl ++ "/" ++ image ++ ":" ++ tag)]]) [config.Executable, "image", "push", destinationUrl ++ "/" ++ image ++ ":" ++ tag] = none →
      copyImageTag w config sourceUrl destinationUrl image tag tr =
        (tr ++ [Event.infof "pull %s" [Arg.str (sourceUrl ++ "/" ++ image ++ ":" ++ tag)], Event.run [config.Executable, "image", "pull", "-q", sourceUrl ++ "/" ++ image ++ ":" ++ tag] none, Event.infof "tag %s to %s" [Arg.str (sourceUrl ++ "/" ++ image ++ ":" ++ tag), Arg.str (destinationUrl ++ "/" ++ image ++ ":" ++ tag)], Event.run [config.Executable, "image", "tag", sourceUrl ++ "/" ++ image ++ ":" ++ tag, destinationUrl ++ "/" ++ image ++ ":" ++ tag] none, Event.infof "push %s" [Arg.str (destinationUrl ++ "/" ++ image ++ ":" ++ tag)],
          Event.run [config.Executable, "image", "push", destinationUrl ++ "/" ++ image ++ ":" ++ tag] none, Event.infof "remove %s and %s" [Arg.str (sourceUrl ++ "/" ++ image ++ ":" ++ tag), Arg.str (destinationUrl ++ "/" ++ image ++ ":" ++ tag)],
          Event.run [config.Executable, "image", "rm", sourceUrl ++ "/" ++ image ++ ":" ++ tag, destinationUrl ++ "/" ++ image ++ ":" ++ tag] (w.Run (tr ++ [Event.infof "pull %s" [Arg.str (sourceUrl ++ "/" ++ image ++ ":" ++ tag)], Event.run [config.Executable, "image", "pull", "-q", sourceUrl ++ "/" ++ image ++ ":" ++ tag] none, Event.infof "tag %s to %s" [Arg.str (sourceUrl ++ "/" ++ image ++ ":" ++ tag), Arg.str (destinationUrl ++ "/" ++ image ++ ":" ++ tag)], Event.run [config.Executable, "image", "tag", sourceUrl ++ "/" ++ image ++ ":" ++ tag, destinationUrl ++ "/" ++ image ++ ":" ++ tag] none, Event.infof "push %s" [Arg.str (destinationUrl ++ "/" ++ image ++ ":" ++ tag)], Event.run [config.Executable, "image", "push", destinationUrl ++ "/" ++ image ++ ":" ++ tag] none, Event.infof "remove %s and %s" [Arg.str (sourceUrl ++ "/" ++ image ++ ":" ++ tag), Arg.str (destinationUrl ++ "/" ++ image ++ ":" ++ tag)]]) [config.Executable, "image", "rm", sourceUrl ++ "/" ++ image ++ ":" ++ tag, destinationUrl ++ "/" ++ image ++ ":" ++ tag])],
          w.Run (tr ++ [Event.infof "pull %s" [Arg.str (sourceUrl ++ "/" ++ image ++ ":" ++ tag)], Event.run [config.Executable, "image", "pull", "-q", sourceUrl ++ "/" ++ image ++ ":" ++ tag] none, Event.infof "tag %s to %s" [Arg.str (sourceUrl ++ "/" ++ image ++ ":" ++ tag), Arg.str (destinationUrl ++ "/" ++ image ++ ":" ++ tag)], Event.run [config.Executable, "image", "tag", sourceUrl ++ "/" ++ image ++ ":" ++ tag, destinationUrl ++ "/" ++ image ++ ":" ++ tag] none, Event.infof "push %s" [Arg.str (destinationUrl ++ "/" ++ image ++ ":" ++ tag)], Event.run [config.Executable, "image", "push", destinationUrl ++ "/" ++ image ++ ":" ++ tag] none, Event.infof "remove %s and %s" [Arg.str (sourceUrl ++ "/" ++ image ++ ":" ++ tag), Arg.str (destinationUrl ++ "/" ++ image ++ ":" ++ tag)]]) [config.Executable, "image", "rm", sourceUrl ++ "/" ++ image ++ ":" ++ tag, destinationUrl ++ "/" ++ image ++ ":" ++ tag])) := by
  refine ⟨?_, ?_, ?_, ?_⟩
  · intro e hp
    simp only [copyImageTag, cmdRun, List.append_assoc, List.cons_append, List.nil_append] at hp ⊢
    simp only [hp]
  · intro e hp ht
    simp only [copyImageTag, cmdRun, List.append_assoc, List.cons_append, List.nil_append]
      at hp ht ⊢
    simp only [hp]
    simp only [List.append_assoc, List.cons_append, List.nil_append]
    simp only [ht]
  · intro e hp ht hq
    simp only [copyImageTag, cmdRun, List.append_assoc, List.cons_append, List.nil_append]
      at hp ht hq ⊢
    simp only [hp]
    simp only [List.append_assoc, List.cons_append, List.nil_append]
    simp only [ht]
    simp only [List.append_assoc, List.cons_append, List.nil_append]
    simp only [hq]
  · intro hp ht hq
    simp only [copyImageTag, cmdRun, List.append_assoc, List.cons_append, List.nil_append]
      at hp ht hq ⊢
    simp only [hp]
    simp only [List.append_assoc, List.cons_append, List.nil_append]
    simp only [ht]
    simp only [List.append_assoc, List.cons_append, List.nil_append]
    simp only [hq]
    simp only [List.append_assoc, List.cons_append, List.nil_append]
    cases w.Run (tr ++ [Event.infof "pull %s" [Arg.str (sourceUrl ++ "/" ++ image ++ ":" ++ tag)], Event.run [config.Executable, "image", "pull", "-q", sourceUrl ++ "/" ++ image ++ ":" ++ tag] none, Event.infof "tag %s to %s" [Arg.str (sourceUrl ++ "/" ++ image ++ ":" ++ tag), Arg.str (destinationUrl ++ "/" ++ image ++ ":" ++ tag)], Event.run [config.Executable, "image", "tag", sourceUrl ++ "/" ++ image ++ ":" ++ tag, destinationUrl ++ "/" ++ image ++ ":" ++ tag] none, Event.infof "push %s" [Arg.str (destinationUrl ++ "/" ++ image ++ ":" ++ tag)], Event.run [config.Executable, "image", "push", destinationUrl ++ "/" ++ image ++ ":" ++ tag] none, Event.infof "remove %s and %s" [Arg.str (sourceUrl ++ "/" ++ image ++ ":" ++ tag), Arg.str (destinationUrl ++ "/" ++ image ++ ":" ++ tag)]]) [config.Executable, "image", "rm", sourceUrl ++ "/" ++ image ++ ":" ++ tag, destinationUrl ++ "/" ++ image ++ ":" ++ tag] <;> rfl

/-- What the loop over the tags of one image adds to the trace: no HTTP
request, one pull for each tag in order, and only engine processes of the
copy of one of the tags. -/
theorem mainTags_events (w : World) (config : applicationConfiguration) (image : String) :
    ∀ (tags : List String) (tr : List Event),
    ∃ new, mainTags w config image tags tr = tr ++ new ∧
      httpCalls new = [] ∧ httpResults new = [] ∧
      pullCalls new = tags.map (fun tag =>
        [config.Executable, "image", "pull", "-q", config.SourceUrl ++ "/" ++ image ++ ":" ++ tag]) ∧
      ∀ argv ∈ engineCalls new, ∃ tag ∈ tags, argv ∈
        [[config.Executable, "image", "pull", "-q", config.SourceUrl ++ "/" ++ image ++ ":" ++ tag],
         [config.Executable, "image", "tag", config.SourceUrl ++ "/" ++ image ++ ":" ++ tag,
           config.DestinationUrl ++ "/" ++ image ++ ":" ++ tag],
         [config.Executable, "image", "push", config.DestinationUrl ++ "/" ++ image ++ ":" ++ tag],
         [config.Executable, "image", "rm", config.SourceUrl ++ "/" ++ image ++ ":" ++ tag,
           config.DestinationUrl ++ "/" ++ image ++ ":" ++ tag]] := by
  intro tags
  induction tags with
  | nil => intro tr; exact ⟨[], by simp [mainTags], rfl, rfl, rfl, by simp [engineCalls]⟩
  | cons tag rest ih =>
    intro tr
    obtain ⟨new1, h1, hc1, hr1, hcases⟩ :=
      copyImageTag_events w config config.SourceUrl config.DestinationUrl image tag tr
    have hpull : pullCalls new1 =
        [[config.Executable, "image", "pull", "-q",
          config.SourceUrl ++ "/" ++ image ++ ":" ++ tag]] := by
      rcases hcases with ⟨e, -, h⟩ | ⟨e, -, h⟩ | ⟨e, -, h⟩ | ⟨o, -, h⟩ <;>
        simp [pullCalls, engineCalls_eq_map, h, isPull]
    have hmem : ∀ argv ∈ engineCalls new1, argv ∈
        [[config.Executable, "image", "pull", "-q", config.SourceUrl ++ "/" ++ image ++ ":" ++ tag],
         [config.Executable, "image", "tag", config.SourceUrl ++ "/" ++ image ++ ":" ++ tag,
           config.DestinationUrl ++ "/" ++ image ++ ":" ++ tag],
         [config.Executable, "image", "push", config.DestinationUrl ++ "/" ++ image ++ ":" ++ tag],
         [config.Executable, "image", "rm", config.SourceUrl ++ "/" ++ image ++ ":" ++ tag,
           config.DestinationUrl ++ "/" ++ image ++ ":" ++ tag]] := by
      intro argv hargv
      rcases hcases with ⟨e, -, h⟩ | ⟨e, -, h⟩ | ⟨e, -, h⟩ | ⟨o, -, h⟩ <;>
        simp only [engineCalls_eq_map, h, List.map_cons, List.map_nil] at hargv <;>
        simp only [List.mem_cons, List.mem_singleton, List.not_mem_nil, or_false] at hargv ⊢ <;>
        tauto
    rw [mainTags]
    split
    · rename_i tr1 e heq
      rw [heq] at h1
      simp only at h1
      subst h1
      obtain ⟨new2, h2, hc2, hr2, hp2, hm2⟩ :=
        ih (tr ++ new1 ++ [Event.errorf "unable to copy %s:%s" [Arg.str image, Arg.str tag]])
      refine ⟨new1 ++ [Event.errorf "unable to copy %s:%s" [Arg.str image, Arg.str tag]] ++ new2,
        by rw [h2]; simp only [List.append_assoc], ?_, ?_, ?_, ?_⟩
      · simp [httpCalls_append, hc1, hc2, httpCalls_cons, httpCalls_nil]
      · simp [httpResults_append, hr1, hr2, httpResults_cons, httpResults_nil]
      · simp [pullCalls_append, hpull, hp2, pullCalls_cons, pullCalls_nil]
      · intro argv hargv
        simp only [engineCalls_append, List.mem_append] at hargv
        rcases hargv with (hargv | hargv) | hargv
        · exact ⟨tag, List.mem_cons_self _ _, hmem argv hargv⟩
        · simp [engineCalls_cons, engineCalls_nil] at hargv
        · obtain ⟨t, ht, hin⟩ := hm2 argv hargv
          exact ⟨t, List.mem_cons_of_mem _ ht, hin⟩
    · rename_i tr1 heq
      rw [heq] at h1
      simp only at h1
      subst h1
      obtain ⟨new2, h2, hc2, hr2, hp2, hm2⟩ := ih (tr ++ new1)
      refine ⟨new1 ++ new2, by rw [h2]; simp only [List.append_assoc], ?_, ?_, ?_, ?_⟩
      · simp [httpCalls_append, hc1, hc2]
      · simp [httpResults_append, hr1, hr2]
      · simp [pullCalls_append, hpull, hp2]
      · intro argv hargv
        simp only [engineCalls_append, List.mem_append] at hargv
        rcases hargv with hargv | hargv
        · exact ⟨tag, List.mem_cons_self _ _, hmem argv hargv⟩
        · obtain ⟨t, ht, hin⟩ := hm2 argv hargv
          exact ⟨t, List.mem_cons_of_mem _ ht, hin⟩

/-- What the loop over the catalog adds to the trace: one tag-list request
for each image the pattern matches, in catalog order; for each of these
requests, one pull for every tag `tags` returns for its answer, in order;
and only engine processes of the copy of a tag of a matching image. -/
theorem mainImages_events (w : World) (config : applicationConfiguration) (regex : Regexp) :
    ∀ (images : List String) (tr : List Event),
    ∃ new, mainImages w config regex images tr = tr ++ new ∧
      httpCalls new = (images.filter regex.MatchString).map (fun image =>
        "https://" ++ config.SourceLogin ++ ":" ++ config.SourcePassword ++ "@" ++
          config.SourceUrl ++ "/v2/" ++ image ++ "/tags/list") ∧
      pullCalls new = (List.zipWith (fun image result =>
          (tagsResponse image result).1.map (fun tag =>
            [config.Executable, "image", "pull", "-q",
              config.SourceUrl ++ "/" ++ image ++ ":" ++ tag]))
        (images.filter regex.MatchString) (httpResults new)).flatten ∧
      ∀ argv ∈ engineCalls new, ∃ image ∈ images, regex.MatchString image = true ∧ ∃ tag, argv ∈
        [[config.Executable, "image", "pull", "-q", config.SourceUrl ++ "/" ++ image ++ ":" ++ tag],
         [config.Executable, "image", "tag", config.SourceUrl ++ "/" ++ image ++ ":" ++ tag,
           config.DestinationUrl ++ "/" ++ image ++ ":" ++ tag],
         [config.Executable, "image", "push", config.DestinationUrl ++ "/" ++ image ++ ":" ++ tag],
         [config.Executable, "image", "rm", config.SourceUrl ++ "/" ++ image ++ ":" ++ tag,
           config.DestinationUrl ++ "/" ++ image ++ ":" ++ tag]] := by
  intro images
  induction images with
  | nil => intro tr; exact ⟨[], by simp [mainImages], rfl, rfl, by simp [engineCalls]⟩
  | cons image rest ih =>
    intro tr
    rw [mainImages]
    cases hm : regex.MatchString image with
    | false =>
      obtain ⟨new, h, hc, hp, hmem⟩ := ih tr
      refine ⟨new, by simpa using h, by simpa [List.filter_cons, hm] using hc,
        by simpa [List.filter_cons, hm] using hp, ?_⟩
      intro argv hargv
      obtain ⟨i, hi, hrest⟩ := hmem argv hargv
      exact ⟨i, List.mem_cons_of_mem _ hi, hrest⟩
    | true =>
      simp only [Bool.not_true, Bool.false_eq_true, ↓reduceIte, tags]
      split
      · rename_i tr1 tl err heq
        simp only [Prod.mk.injEq] at heq
        obtain ⟨rfl, hresp⟩ := heq
        obtain ⟨new1, h1, hc1, hr1, hp1, hm1⟩ := mainTags_events w config image tl
          (tr ++ [Event.get ("https://" ++ config.SourceLogin ++ ":" ++ config.SourcePassword ++
              "@" ++ config.SourceUrl ++ "/v2/" ++ image ++ "/tags/list")
              (w.Get tr ("https://" ++ config.SourceLogin ++ ":" ++ config.SourcePassword ++
              "@" ++ config.SourceUrl ++ "/v2/" ++ image ++ "/tags/list"))] ++
            [Event.errorf "unable to get tags for %s: %s" [Arg.str image, Arg.err err],
              Event.printf "tags for %s: %s\n" [Arg.str image, Arg.strs tl]])
        rw [h1]
        obtain ⟨new2, h2, hc2, hp2, hm2⟩ := ih (tr ++ [Event.get ("https://" ++ config.SourceLogin ++ ":" ++ config.SourcePassword ++
              "@" ++ config.SourceUrl ++ "/v2/" ++ image ++ "/tags/list")
              (w.Get tr ("https://" ++ config.SourceLogin ++ ":" ++ config.SourcePassword ++
              "@" ++ config.SourceUrl ++ "/v2/" ++ image ++ "/tags/list"))] ++
            [Event.errorf "unable to get tags for %s: %s" [Arg.str image, Arg.err err],
              Event.printf "tags for %s: %s\n" [Arg.str image, Arg.strs tl]] ++ new1)
        rw [h2]
        simp only [List.append_assoc]
        refine ⟨_, rfl, ?_, ?_, ?_⟩
        · simp [httpCalls_append, hc1, hc2, httpCalls_cons, httpCalls_nil, List.filter_cons, hm]
        · simp [httpResults_append, hr1, httpResults_cons, httpResults_nil,
            pullCalls_append, pullCalls_cons, pullCalls_nil, hp1, hp2, List.filter_cons, hm, hresp]
        · intro argv hargv
          simp only [engineCalls_append, List.mem_append, engineCalls_cons, engineCalls_nil,
            List.append_nil, List.not_mem_nil, false_or] at hargv
          rcases hargv with hargv | hargv
          · obtain ⟨t, -, hin⟩ := hm1 argv hargv
            exact ⟨image, List.mem_cons_self _ _, hm, t, hin⟩
          · obtain ⟨i, hi, hrest⟩ := hm2 argv hargv
            exact ⟨i, List.mem_cons_of_mem _ hi, hrest⟩
      · rename_i tr1 tl heq
        simp only [Prod.mk.injEq] at heq
        obtain ⟨rfl, hresp⟩ := heq
        obtain ⟨new1, h1, hc1, hr1, hp1, hm1⟩ := mainTags_events w config image tl
          (tr ++ [Event.get ("https://" ++ config.SourceLogin ++ ":" ++ config.SourcePassword ++
              "@" ++ config.SourceUrl ++ "/v2/" ++ image ++ "/tags/list")
              (w.Get tr ("https://" ++ config.SourceLogin ++ ":" ++ config.SourcePassword ++
              "@" ++ config.SourceUrl ++ "/v2/" ++ image ++ "/tags/list"))] ++
            [Event.printf "tags for %s: %s\n" [Arg.str image, Arg.strs tl]])
        rw [h1]
        obtain ⟨new2, h2, hc2, hp2, hm2⟩ := ih (tr ++ [Event.get ("https://" ++ config.SourceLogin ++ ":" ++ config.SourcePassword ++
              "@" ++ config.SourceUrl ++ "/v2/" ++ image ++ "/tags/list")
              (w.Get tr ("https://" ++ config.SourceLogin ++ ":" ++ config.SourcePassword ++
              "@" ++ config.SourceUrl ++ "/v2/" ++ image ++ "/tags/list"))] ++
            [Event.printf "tags for %s: %s\n" [Arg.str image, Arg.strs tl]] ++ new1)
        rw [h2]
        simp only [List.append_assoc]
        refine ⟨_, rfl, ?_, ?_, ?_⟩
        · simp [httpCalls_append, hc1, hc2, httpCalls_cons, httpCalls_nil, List.filter_cons, hm]
        · simp [httpResults_append, hr1, httpResults_cons, httpResults_nil,
            pullCalls_append, pullCalls_cons, pullCalls_nil, hp1, hp2, List.filter_cons, hm, hresp]
        · intro argv hargv
          simp only [engineCalls_append, List.mem_append, engineCalls_cons, engineCalls_nil,
            List.append_nil, List.not_mem_nil, false_or] at hargv
          rcases hargv with hargv | hargv
          · obtain ⟨t, -, hin⟩ := hm1 argv hargv
            exact ⟨image, List.mem_cons_self _ _, hm, t, hin⟩
          · obtain ⟨i, hi, hrest⟩ := hm2 argv hargv
            exact ⟨i, List.mem_cons_of_mem _ hi, hrest⟩

/-- The run after its four fatal checks: when both logins, the catalog fetch
and the compilation of the pattern succeed, `main` is the loop over the
catalog and returns. -/
theorem main_past_fatal (w : World) (config : applicationConfiguration) (tr : List Event)
    (images : List String) (regex : Regexp)
    (hsrc : (login w config config.SourceUrl config.SourceLogin config.SourcePassword tr).2 = none)
    (hdst : (login w config config.DestinationUrl config.DestinationLogin
      config.DestinationPassword
      (login w config config.SourceUrl config.SourceLogin config.SourcePassword tr).1).2 = none)
    (hcat : (catalog w config.SourceUrl config.SourceLogin config.SourcePassword
      (login w config config.DestinationUrl config.DestinationLogin config.DestinationPassword
        (login w config config.SourceUrl config.SourceLogin
          config.SourcePassword tr).1).1).2 = (images, none))
    (hre : w.Compile config.SourceInclude = CompileResult.ok regex) :
    main w config tr =
      (mainImages w config regex images
        (catalog w config.SourceUrl config.SourceLogin config.SourcePassword
          (login w config config.DestinationUrl config.DestinationLogin
            config.DestinationPassword
            (login w config config.SourceUrl config.SourceLogin
              config.SourcePassword tr).1).1).1, Exit.returned) := by
  unfold main
  split
  · rename_i tr1 err heq
    rw [heq] at hsrc
    cases hsrc
  · rename_i tr1 heq
    rw [heq] at hdst hcat ⊢
    simp only at hdst hcat ⊢
    split
    · rename_i tr2 err heq2
      rw [heq2] at hdst
      cases hdst
    · rename_i tr2 heq2
      rw [heq2] at hcat ⊢
      simp only at hcat ⊢
      split
      · rename_i tr3 l err heq3
        rw [heq3] at hcat
        cases hcat
      · rename_i tr3 l heq3
        rw [heq3] at hcat ⊢
        simp only [Prod.mk.injEq, and_true] at hcat
        subst hcat
        simp only [hre]

/-- The catalog fetch is fatal: when both logins succeed and `catalog`
returns an error, the run ends with the catalog request and the fatal log
line. -/
theorem main_catalog_failed (w : World) (config : applicationConfiguration) (tr : List Event)
    (e : GoError)
    (h1 : w.Run tr [config.Executable, "login", "--username", config.SourceLogin,
      "--password", config.SourcePassword, config.SourceUrl] = none)
    (h2 : w.Run (tr ++ [Event.run [config.Executable, "login", "--username", config.SourceLogin,
        "--password", config.SourcePassword, config.SourceUrl] none])
      [config.Executable, "login", "--username", config.DestinationLogin,
        "--password", config.DestinationPassword, config.DestinationUrl] = none)
    (h3 : (catalogResponse config.SourceUrl
      (w.Get (tr ++ [Event.run [config.Executable, "login", "--username", config.SourceLogin,
          "--password", config.SourcePassword, config.SourceUrl] none,
        Event.run [config.Executable, "login", "--username", config.DestinationLogin,
          "--password", config.DestinationPassword, config.DestinationUrl] none])
        ("https://" ++ config.SourceLogin ++ ":" ++ config.SourcePassword ++ "@" ++
          config.SourceUrl ++ "/v2/_catalog"))).2 = some e) :
    main w config tr =
      (tr ++ [Event.run [config.Executable, "login", "--username", config.SourceLogin,
          "--password", config.SourcePassword, config.SourceUrl] none,
        Event.run [config.Executable, "login", "--username", config.DestinationLogin,
          "--password", config.DestinationPassword, config.DestinationUrl] none] ++
        [Event.get ("https://" ++ config.SourceLogin ++ ":" ++ config.SourcePassword ++ "@" ++
            config.SourceUrl ++ "/v2/_catalog")
          (w.Get (tr ++ [Event.run [config.Executable, "login", "--username", config.SourceLogin,
              "--password", config.SourcePassword, config.SourceUrl] none,
            Event.run [config.Executable, "login", "--username", config.DestinationLogin,
              "--password", config.DestinationPassword, config.DestinationUrl] none])
            ("https://" ++ config.SourceLogin ++ ":" ++ config.SourcePassword ++ "@" ++
              config.SourceUrl ++ "/v2/_catalog")),
         Event.fatalf "unable to get source catalog: %s" [Arg.err e]], Exit.fatal) := by
  have hl1 : login w config config.SourceUrl config.SourceLogin config.SourcePassword tr =
      (tr ++ [Event.run [config.Executable, "login", "--username", config.SourceLogin,
        "--password", config.SourcePassword, config.SourceUrl] none], none) := by
    simp only [login, cmdRun]
    rw [h1]
  have hl2 : login w config config.DestinationUrl config.DestinationLogin
      config.DestinationPassword
      (tr ++ [Event.run [config.Executable, "login", "--username", config.SourceLogin,
        "--password", config.SourcePassword, config.SourceUrl] none]) =
      (tr ++ [Event.run [config.Executable, "login", "--username", config.SourceLogin,
          "--password", config.SourcePassword, config.SourceUrl] none,
        Event.run [config.Executable, "login", "--username", config.DestinationLogin,
          "--password", config.DestinationPassword, config.DestinationUrl] none], none) := by
    simp only [login, cmdRun]
    rw [h2]
    simp
  rcases hc : catalogResponse config.SourceUrl
      (w.Get (tr ++ [Event.run [config.Executable, "login", "--username", config.SourceLogin,
          "--password", config.SourcePassword, config.SourceUrl] none,
        Event.run [config.Executable, "login", "--username", config.DestinationLogin,
          "--password", config.DestinationPassword, config.DestinationUrl] none])
        ("https://" ++ config.SourceLogin ++ ":" ++ config.SourcePassword ++ "@" ++
          config.SourceUrl ++ "/v2/_catalog")) with ⟨l, o⟩
  rw [hc] at h3
  simp only at h3
  subst h3
  simp only [main, hl1, hl2, catalog, hc, List.append_assoc, List.singleton_append,
    List.cons_append, List.nil_append]

/-- An error of `tags` comes with the nil slice. -/
theorem tagsResponse_error (image : String) (r : GetResult) (e : GoError)
    (h : (tagsResponse image r).2 = some e) : tagsResponse image r = ([], some e) := by
  unfold tagsResponse at h ⊢
  split at h
  · simp_all
  · split at h
    · simp_all
    · split at h
      · simp_all
      · split at h
        · simp_all
        · simp at h

/-- A failed tag listing is not fatal: the error is logged, nothing is copied
for the image and the loop goes on with the rest of the catalog. -/
theorem mainImages_tags_failed (w : World) (config : applicationConfiguration) (regex : Regexp)
    (image : String) (rest : List String) (tr : List Event) (e : GoError)
    (hm : regex.MatchString image = true)
    (h : (tagsResponse image (w.Get tr ("https://" ++ config.SourceLogin ++ ":" ++
      config.SourcePassword ++ "@" ++ config.SourceUrl ++ "/v2/" ++ image ++
      "/tags/list"))).2 = some e) :
    mainImages w config regex (image :: rest) tr =
      mainImages w config regex rest
        (tr ++ [Event.get ("https://" ++ config.SourceLogin ++ ":" ++ config.SourcePassword ++
            "@" ++ config.SourceUrl ++ "/v2/" ++ image ++ "/tags/list")
            (w.Get tr ("https://" ++ config.SourceLogin ++ ":" ++ config.SourcePassword ++
              "@" ++ config.SourceUrl ++ "/v2/" ++ image ++ "/tags/list")),
          Event.errorf "unable to get tags for %s: %s" [Arg.str image, Arg.err e],
          Event.printf "tags for %s: %s\n" [Arg.str image, Arg.strs []]]) := by
  have h' := tagsResponse_error image _ e h
  rw [mainImages]
  simp only [hm, Bool.not_true, Bool.false_eq_true, ↓reduceIte, tags, h', mainTags,
    List.append_assoc, List.singleton_append]

/-! ## The copy sequence -/

/-- C1: for every source URL, destination URL, image, tag and world,
`copyImageTag` runs its engine processes in the order pull, tag, push,
remove and stops at the first that fails. `atPull`, `atTag`, `atPush` and
`atRemove` are the traces at which the world is asked for the outcome of
each process. When the world fails the pull, the engine processes added to
the trace are that pull alone; when it fails the tag, the pull and the tag;
when it fails the push, the pull, the tag and the push; and when it lets
these three succeed, all four, whatever the outcome of the remove. -/
theorem copyImageTag_call_order (w : World) (config : applicationConfiguration)
    (sourceUrl destinationUrl image tag : String) (tr : List Event) :
    let SRC := sourceUrl ++ "/" ++ image ++ ":" ++ tag
    let DST := destinationUrl ++ "/" ++ image ++ ":" ++ tag
    let pull := [config.Executable, "image", "pull", "-q", SRC]
    let retag := [config.Executable, "image", "tag", SRC, DST]
    let push := [config.Executable, "image", "push", DST]
    let remove := [config.Executable, "image", "rm", SRC, DST]
    let atPull := tr ++ [Event.infof "pull %s" [Arg.str SRC]]
    let atTag := tr ++ [Event.infof "pull %s" [Arg.str SRC], Event.run pull none,
      Event.infof "tag %s to %s" [Arg.str SRC, Arg.str DST]]
    let atPush := tr ++ [Event.infof "pull %s" [Arg.str SRC], Event.run pull none,
      Event.infof "tag %s to %s" [Arg.str SRC, Arg.str DST], Event.run retag none,
      Event.infof "push %s" [Arg.str DST]]
    let atRemove := tr ++ [Event.infof "pull %s" [Arg.str SRC], Event.run pull none,
      Event.infof "tag %s to %s" [Arg.str SRC, Arg.str DST], Event.run retag none,
      Event.infof "push %s" [Arg.str DST], Event.run push none,
      Event.infof "remove %s and %s" [Arg.str SRC, Arg.str DST]]
    let r := copyImageTag w config sourceUrl destinationUrl image tag tr
    (∀ e, w.Run atPull pull = some e →
      engineResults r.1 = engineResults tr ++ [(pull, some e)]) ∧
    (∀ e, w.Run atPull pull = none → w.Run atTag retag = some e →
      engineResults r.1 = engineResults tr ++ [(pull, none), (retag, some e)]) ∧
    (∀ e, w.Run atPull pull = none → w.Run atTag retag = none → w.Run atPush push = some e →
      engineResults r.1 = engineResults tr ++ [(pull, none), (retag, none), (push, some e)]) ∧
    (w.Run atPull pull = none → w.Run atTag retag = none → w.Run atPush push = none →
      engineResults r.1 =
        engineResults tr ++
          [(pull, none), (retag, none), (push, none), (remove, w.Run atRemove remove)]) := by
  intro SRC DST pull retag push remove atPull atTag atPush atRemove r
  obtain ⟨c1, c2, c3, c4⟩ := copyImageTag_eq w config sourceUrl destinationUrl image tag tr
  refine ⟨?_, ?_, ?_, ?_⟩
  · intro e hp
    show engineResults (copyImageTag w config sourceUrl destinationUrl image tag tr).1 = _
    rw [c1 e hp, engineResults_append]
    rfl
  · intro e hp ht
    show engineResults (copyImageTag w config sourceUrl destinationUrl image tag tr).1 = _
    rw [c2 e hp ht, engineResults_append]
    rfl
  · intro e hp ht hq
    show engineResults (copyImageTag w config sourceUrl destinationUrl image tag tr).1 = _
    rw [c3 e hp ht hq, engineResults_append]
    rfl
  · intro hp ht hq
    show engineResults (copyImageTag w config sourceUrl destinationUrl image tag tr).1 = _
    rw [c4 hp ht hq, engineResults_append]
    rfl

/-- C1 on concrete worlds: a failing pull, a failing tag, a failing push, a
copy that succeeds and a failing remove. -/
theorem copyImageTag_call_order_witness :
    engineResults
        (copyImageTag pullFailsWorld demoConfig "src.example" "dst.example" "app" "v1" []).1 =
      [(["docker", "image", "pull", "-q", "src.example/app:v1"],
        some (GoError.msg "exit status 1"))] ∧
    engineResults
        (copyImageTag tagFailsWorld demoConfig "src.example" "dst.example" "app" "v1" []).1 =
      [(["docker", "image", "pull", "-q", "src.example/app:v1"], none),
       (["docker", "image", "tag", "src.example/app:v1", "dst.example/app:v1"],
        some (GoError.msg "exit status 1"))] ∧
    engineResults
        (copyImageTag demoWorld demoConfig "src.example" "dst.example" "app" "v1" []).1 =
      [(["docker", "image", "pull", "-q", "src.example/app:v1"], none),
       (["docker", "image", "tag", "src.example/app:v1", "dst.example/app:v1"], none),
       (["docker", "image", "push", "dst.example/app:v1"], some (GoError.msg "exit status 1"))] ∧
    engineResults
        (copyImageTag demoWorld demoConfig "src.example" "dst.example" "app" "v2" []).1 =
      [(["docker", "image", "pull", "-q", "src.example/app:v2"], none),
       (["docker", "image", "tag", "src.example/app:v2", "dst.example/app:v2"], none),
       (["docker", "image", "push", "dst.example/app:v2"], none),
       (["docker", "image", "rm", "src.example/app:v2", "dst.example/app:v2"], none)] ∧
    engineResults
        (copyImageTag removeFailsWorld demoConfig "src.example" "dst.example" "app" "v1" []).1 =
      [(["docker", "image", "pull", "-q", "src.example/app:v1"], none),
       (["docker", "image", "tag", "src.example/app:v1", "dst.example/app:v1"], none),
       (["docker", "image", "push", "dst.example/app:v1"], none),
       (["docker", "image", "rm", "src.example/app:v1", "dst.example/app:v1"],
        some (GoError.msg "exit status 1"))] :=
  ⟨(copyImageTag_call_order pullFailsWorld demoConfig "src.example" "dst.example" "app" "v1"
      []).1 _ (by decide),
   (copyImageTag_call_order tagFailsWorld demoConfig "src.example" "dst.example" "app" "v1"
      []).2.1 _ (by decide) (by decide),
   (copyImageTag_call_order demoWorld demoConfig "src.example" "dst.example" "app" "v1"
      []).2.2.1 _ (by decide) (by decide) (by decide),
   (copyImageTag_call_order demoWorld demoConfig "src.example" "dst.example" "app" "v2"
      []).2.2.2 (by decide) (by decide) (by decide),
   (copyImageTag_call_order removeFailsWorld demoConfig "src.example" "dst.example" "app" "v1"
      []).2.2.2 (by decide) (by decide) (by decide)⟩

/-- C10: `copyImageTag` returns nil exactly when the world lets all four
engine processes (pull, tag, push, remove) exit zero, and otherwise returns
the error of the first that fails. In particular, when pull, tag and push
succeed and the remove fails, it returns the error of the remove although
the push has been run with success; and whenever `copyImageTag` returns an
error, `main` logs the tag as "unable to copy" and goes on with the next
tag, while after nil it goes on without a log line. -/
theorem copyImageTag_result (w : World) (config : applicationConfiguration)
    (sourceUrl destinationUrl image tag : String) (tr : List Event) :
    let SRC := sourceUrl ++ "/" ++ image ++ ":" ++ tag
    let DST := destinationUrl ++ "/" ++ image ++ ":" ++ tag
    let pull := [config.Executable, "image", "pull", "-q", SRC]
    let retag := [config.Executable, "image", "tag", SRC, DST]
    let push := [config.Executable, "image", "push", DST]
    let remove := [config.Executable, "image", "rm", SRC, DST]
    let atPull := tr ++ [Event.infof "pull %s" [Arg.str SRC]]
    let atTag := tr ++ [Event.infof "pull %s" [Arg.str SRC], Event.run pull none,
      Event.infof "tag %s to %s" [Arg.str SRC, Arg.str DST]]
    let atPush := tr ++ [Event.infof "pull %s" [Arg.str SRC], Event.run pull none,
      Event.infof "tag %s to %s" [Arg.str SRC, Arg.str DST], Event.run retag none,
      Event.infof "push %s" [Arg.str DST]]
    let atRemove := tr ++ [Event.infof "pull %s" [Arg.str SRC], Event.run pull none,
      Event.infof "tag %s to %s" [Arg.str SRC, Arg.str DST], Event.run retag none,
      Event.infof "push %s" [Arg.str DST], Event.run push none,
      Event.infof "remove %s and %s" [Arg.str SRC, Arg.str DST]]
    let r := copyImageTag w config sourceUrl destinationUrl image tag tr
    let copy := copyImageTag w config config.SourceUrl config.DestinationUrl image tag tr
    (r.2 = none ↔
      w.Run atPull pull = none ∧ w.Run atTag retag = none ∧ w.Run atPush push = none ∧
        w.Run atRemove remove = none) ∧
    (∀ e, w.Run atPull pull = some e → r.2 = some e) ∧
    (∀ e, w.Run atPull pull = none → w.Run atTag retag = some e → r.2 = some e) ∧
    (∀ e, w.Run atPull pull = none → w.Run atTag retag = none → w.Run atPush push = some e →
      r.2 = some e) ∧
    (∀ e, w.Run atPull pull = none → w.Run atTag retag = none → w.Run atPush push = none →
      w.Run atRemove remove = some e →
      r.2 = some e ∧
      engineResults r.1 =
        engineResults tr ++ [(pull, none), (retag, none), (push, none), (remove, some e)]) ∧
    (∀ rest, copy.2 ≠ none →
      mainTags w config image (tag :: rest) tr =
        mainTags w config image rest
          (copy.1 ++ [Event.errorf "unable to copy %s:%s" [Arg.str image, Arg.str tag]])) ∧
    (∀ rest, copy.2 = none →
      mainTags w config image (tag :: rest) tr = mainTags w config image rest copy.1) := by
  intro SRC DST pull retag push remove atPull atTag atPush atRemove r copy
  obtain ⟨c1, c2, c3, c4⟩ := copyImageTag_eq w config sourceUrl destinationUrl image tag tr
  have e1 : ∀ e, w.Run atPull pull = some e → r.2 = some e := by
    intro e hp
    show (copyImageTag w config sourceUrl destinationUrl image tag tr).2 = _
    rw [c1 e hp]
  have e2 : ∀ e, w.Run atPull pull = none → w.Run atTag retag = some e → r.2 = some e := by
    intro e hp ht
    show (copyImageTag w config sourceUrl destinationUrl image tag tr).2 = _
    rw [c2 e hp ht]
  have e3 : ∀ e, w.Run atPull pull = none → w.Run atTag retag = none →
      w.Run atPush push = some e → r.2 = some e := by
    intro e hp ht hq
    show (copyImageTag w config sourceUrl destinationUrl image tag tr).2 = _
    rw [c3 e hp ht hq]
  have e4 : w.Run atPull pull = none → w.Run atTag retag = none →
      w.Run atPush push = none → r.2 = w.Run atRemove remove := by
    intro hp ht hq
    show (copyImageTag w config sourceUrl destinationUrl image tag tr).2 = _
    rw [c4 hp ht hq]
  refine ⟨?_, e1, e2, e3, ?_, ?_, ?_⟩
  · cases hp : w.Run atPull pull with
    | some e => simp [e1 e hp]
    | none =>
      cases ht : w.Run atTag retag with
      | some e => simp [e2 e hp ht]
      | none =>
        cases hq : w.Run atPush push with
        | some e => simp [e3 e hp ht hq]
        | none => simp [e4 hp ht hq]
  · intro e hp ht hq hr
    refine ⟨by rw [e4 hp ht hq, hr], ?_⟩
    show engineResults (copyImageTag w config sourceUrl destinationUrl image tag tr).1 = _
    rw [c4 hp ht hq, engineResults_append]
    show _ ++ [(pull, none), (retag, none), (push, none), (remove, w.Run atRemove remove)] = _
    rw [hr]
  · intro rest hne
    rw [mainTags]
    split
    · rename_i tr1 e heq
      show _ = mainTags w config image rest
        ((copyImageTag w config config.SourceUrl config.DestinationUrl image tag tr).1 ++ _)
      rw [heq]
    · rename_i tr1 heq
      have : copy.2 = none := by
        show (copyImageTag w config config.SourceUrl config.DestinationUrl image tag tr).2 = none
        rw [heq]
      exact absurd this hne
  · intro rest hnone
    rw [mainTags]
    split
    · rename_i tr1 e heq
      have : copy.2 = some e := by
        show (copyImageTag w config config.SourceUrl config.DestinationUrl image tag tr).2 = _
        rw [heq]
      rw [this] at hnone
      cases hnone
    · rename_i tr1 heq
      show _ = mainTags w config image rest
        (copyImageTag w config config.SourceUrl config.DestinationUrl image tag tr).1
      rw [heq]

set_option maxRecDepth 100000 in
/-- C10 on concrete worlds: the copy of `app:v2` in the demo world returns
nil; a failing pull and a failing remove return their error; and in the
world where the remove fails `main` logs `app:v1` as "unable to copy",
after the push has been run with success, and goes on to copy `v2`. -/
theorem copyImageTag_result_witness :
    (copyImageTag demoWorld demoConfig "src.example" "dst.example" "app" "v2" []).2 = none ∧
    (copyImageTag pullFailsWorld demoConfig "src.example" "dst.example" "app" "v1" []).2 =
      some (GoError.msg "exit status 1") ∧
    (copyImageTag removeFailsWorld demoConfig "src.example" "dst.example" "app" "v1" []).2 =
      some (GoError.msg "exit status 1") ∧
    engineResults
        (copyImageTag removeFailsWorld demoConfig "src.example" "dst.example" "app" "v1" []).1 =
      [(["docker", "image", "pull", "-q", "src.example/app:v1"], none),
       (["docker", "image", "tag", "src.example/app:v1", "dst.example/app:v1"], none),
       (["docker", "image", "push", "dst.example/app:v1"], none),
       (["docker", "image", "rm", "src.example/app:v1", "dst.example/app:v1"],
        some (GoError.msg "exit status 1"))] ∧
    mainTags removeFailsWorld demoConfig "app" ["v1", "v2"] [] =
      mainTags removeFailsWorld demoConfig "app" ["v2"]
        ((copyImageTag removeFailsWorld demoConfig "src.example" "dst.example" "app" "v1" []).1 ++
          [Event.errorf "unable to copy %s:%s" [Arg.str "app", Arg.str "v1"]]) ∧
    engineCalls (mainTags removeFailsWorld demoConfig "app" ["v1", "v2"] []) =
      [["docker", "image", "pull", "-q", "src.example/app:v1"],
       ["docker", "image", "tag", "src.example/app:v1", "dst.example/app:v1"],
       ["docker", "image", "push", "dst.example/app:v1"],
       ["docker", "image", "rm", "src.example/app:v1", "dst.example/app:v1"],
       ["docker", "image", "pull", "-q", "src.example/app:v2"],
       ["docker", "image", "tag", "src.example/app:v2", "dst.example/app:v2"],
       ["docker", "image", "push", "dst.example/app:v2"],
       ["docker", "image", "rm", "src.example/app:v2", "dst.example/app:v2"]] :=
  ⟨(copyImageTag_result demoWorld demoConfig "src.example" "dst.example" "app" "v2" []).1.mpr
      ⟨by decide, by decide, by decide, by decide⟩,
   (copyImageTag_result pullFailsWorld demoConfig "src.example" "dst.example" "app" "v1"
      []).2.1 _ (by decide),
   ((copyImageTag_result removeFailsWorld demoConfig "src.example" "dst.example" "app" "v1"
      []).2.2.2.2.1 _ (by decide) (by decide) (by decide) (by decide)).1,
   ((copyImageTag_result removeFailsWorld demoConfig "src.example" "dst.example" "app" "v1"
      []).2.2.2.2.1 _ (by decide) (by decide) (by decide) (by decide)).2,
   (copyImageTag_result removeFailsWorld demoConfig "src.example" "dst.example" "app" "v1"
      []).2.2.2.2.2.1 ["v2"] (by decide),
   by decide⟩

/-! ## The orchestrator: which repositories are copied, and what stops the run -/

/-- C7: once both logins, the catalog fetch and the compilation of the
pattern have succeeded, then whatever the tag-list requests and the engine
processes answer, `main` issues exactly one tag-list request for each
matching repository, in catalog order, and for each of these requests
exactly one pull for every tag that `tags` returned for its answer, in
tag-list order; and `main` returns normally. -/
theorem loop_survives_errors (w : World) (config : applicationConfiguration) (tr : List Event)
    (images : List String) (regex : Regexp)
    (hsrc : (login w config config.SourceUrl config.SourceLogin config.SourcePassword tr).2 = none)
    (hdst : (login w config config.DestinationUrl config.DestinationLogin
      config.DestinationPassword
      (login w config config.SourceUrl config.SourceLogin config.SourcePassword tr).1).2 = none)
    (hcat : (catalog w config.SourceUrl config.SourceLogin config.SourcePassword
      (login w config config.DestinationUrl config.DestinationLogin config.DestinationPassword
        (login w config config.SourceUrl config.SourceLogin
          config.SourcePassword tr).1).1).2 = (images, none))
    (hre : w.Compile config.SourceInclude = CompileResult.ok regex) :
    ∃ new,
      (main w config tr).1 =
        (catalog w config.SourceUrl config.SourceLogin config.SourcePassword
          (login w config config.DestinationUrl config.DestinationLogin
            config.DestinationPassword
            (login w config config.SourceUrl config.SourceLogin
              config.SourcePassword tr).1).1).1 ++ new ∧
      httpCalls new = (images.filter regex.MatchString).map (fun image =>
        "https://" ++ config.SourceLogin ++ ":" ++ config.SourcePassword ++ "@" ++
          config.SourceUrl ++ "/v2/" ++ image ++ "/tags/list") ∧
      pullCalls new = (List.zipWith (fun image result =>
          (tagsResponse image result).1.map (fun tag =>
            [config.Executable, "image", "pull", "-q",
              config.SourceUrl ++ "/" ++ image ++ ":" ++ tag]))
        (images.filter regex.MatchString) (httpResults new)).flatten ∧
      (main w config tr).2 = Exit.returned := by
  rw [main_past_fatal w config tr images regex hsrc hdst hcat hre]
  obtain ⟨new, h, hc, hp, -⟩ := mainImages_events w config regex images
    (catalog w config.SourceUrl config.SourceLogin config.SourcePassword
      (login w config config.DestinationUrl config.DestinationLogin
        config.DestinationPassword
        (login w config config.SourceUrl config.SourceLogin
          config.SourcePassword tr).1).1).1
  exact ⟨new, h, hc, hp, rfl⟩

set_option maxRecDepth 100000 in
/-- C7 on the demo world: the tag list of `lib` is refused and the push of
`app:v1` fails, yet both tag lists are requested, both tags of `app` are
pulled and the run returns normally. -/
theorem loop_survives_errors_witness :
    ∃ new,
      (main demoWorld demoConfig []).1 =
        [Event.run ["docker", "login", "--username", "u", "--password", "p", "src.example"] none,
         Event.run ["docker", "login", "--username", "v", "--password", "q", "dst.example"] none,
         Event.get "https://u:p@src.example/v2/_catalog"
           (ok200 "\x7b\"repositories\":[\"app\",\"lib\"]\x7d")] ++ new ∧
      httpCalls new =
        ["https://u:p@src.example/v2/app/tags/list", "https://u:p@src.example/v2/lib/tags/list"] ∧
      pullCalls new =
        [["docker", "image", "pull", "-q", "src.example/app:v1"],
         ["docker", "image", "pull", "-q", "src.example/app:v2"]] ∧
      (main demoWorld demoConfig []).2 = Exit.returned := by
  obtain ⟨new, h, hc, hp, hx⟩ :=
    loop_survives_errors demoWorld demoConfig [] ["app", "lib"] _
      (by decide) (by decide) (by decide) rfl
  have hstart : (catalog demoWorld demoConfig.SourceUrl demoConfig.SourceLogin
      demoConfig.SourcePassword
      (login demoWorld demoConfig demoConfig.DestinationUrl demoConfig.DestinationLogin
        demoConfig.DestinationPassword
        (login demoWorld demoConfig demoConfig.SourceUrl demoConfig.SourceLogin
          demoConfig.SourcePassword []).1).1).1 =
      [Event.run ["docker", "login", "--username", "u", "--password", "p", "src.example"] none,
       Event.run ["docker", "login", "--username", "v", "--password", "q", "dst.example"] none,
       Event.get "https://u:p@src.example/v2/_catalog"
         (ok200 "\x7b\"repositories\":[\"app\",\"lib\"]\x7d")] := by decide
  rw [hstart] at h
  have hnew : new = (main demoWorld demoConfig []).1.drop 3 := by rw [h]; rfl
  refine ⟨new, h, ?_, ?_, hx⟩
  · rw [hnew]; decide
  · rw [hnew]; decide

/-- C2: for every catalog the source registry returns and every pattern
that compiles, the repositories whose tags `main` requests are exactly the
catalog entries `MatchString` accepts, in catalog order and as often as they
occur, and every engine process the loop runs belongs to the copy of a tag
of a catalog entry `MatchString` accepts. -/
theorem include_filter (w : World) (config : applicationConfiguration) (tr : List Event)
    (images : List String) (regex : Regexp)
    (hsrc : (login w config config.SourceUrl config.SourceLogin config.SourcePassword tr).2 = none)
    (hdst : (login w config config.DestinationUrl config.DestinationLogin
      config.DestinationPassword
      (login w config config.SourceUrl config.SourceLogin config.SourcePassword tr).1).2 = none)
    (hcat : (catalog w config.SourceUrl config.SourceLogin config.SourcePassword
      (login w config config.DestinationUrl config.DestinationLogin config.DestinationPassword
        (login w config config.SourceUrl config.SourceLogin
          config.SourcePassword tr).1).1).2 = (images, none))
    (hre : w.Compile config.SourceInclude = CompileResult.ok regex) :
    ∃ new,
      (main w config tr).1 =
        (catalog w config.SourceUrl config.SourceLogin config.SourcePassword
          (login w config config.DestinationUrl config.DestinationLogin
            config.DestinationPassword
            (login w config config.SourceUrl config.SourceLogin
              config.SourcePassword tr).1).1).1 ++ new ∧
      httpCalls new = (images.filter regex.MatchString).map (fun image =>
        "https://" ++ config.SourceLogin ++ ":" ++ config.SourcePassword ++ "@" ++
          config.SourceUrl ++ "/v2/" ++ image ++ "/tags/list") ∧
      ∀ argv ∈ engineCalls new, ∃ image ∈ images, regex.MatchString image = true ∧ ∃ tag, argv ∈
        [[config.Executable, "image", "pull", "-q", config.SourceUrl ++ "/" ++ image ++ ":" ++ tag],
         [config.Executable, "image", "tag", config.SourceUrl ++ "/" ++ image ++ ":" ++ tag,
           config.DestinationUrl ++ "/" ++ image ++ ":" ++ tag],
         [config.Executable, "image", "push", config.DestinationUrl ++ "/" ++ image ++ ":" ++ tag],
         [config.Executable, "image", "rm", config.SourceUrl ++ "/" ++ image ++ ":" ++ tag,
           config.DestinationUrl ++ "/" ++ image ++ ":" ++ tag]] := by
  rw [main_past_fatal w config tr images regex hsrc hdst hcat hre]
  obtain ⟨new, h, hc, -, hm⟩ := mainImages_events w config regex images
    (catalog w config.SourceUrl config.SourceLogin config.SourcePassword
      (login w config config.DestinationUrl config.DestinationLogin
        config.DestinationPassword
        (login w config config.SourceUrl config.SourceLogin
          config.SourcePassword tr).1).1).1
  exact ⟨new, h, hc, hm⟩

set_option maxRecDepth 100000 in
/-- C2 on a concrete catalog with the pattern `ib/`: the tags of `lib/x` are
requested twice and nothing is requested or copied for `app` and `App`. -/
theorem include_filter_witness :
    httpCalls (main filterWorld filterConfig []).1 =
      ["https://u:p@src.example/v2/_catalog",
       "https://u:p@src.example/v2/lib/x/tags/list",
       "https://u:p@src.example/v2/lib/x/tags/list"] ∧
    ∀ argv ∈ (engineCalls (main filterWorld filterConfig []).1).drop 2,
      ∃ tag, argv ∈
        [["docker", "image", "pull", "-q", "src.example/lib/x:" ++ tag],
         ["docker", "image", "tag", "src.example/lib/x:" ++ tag, "dst.example/lib/x:" ++ tag],
         ["docker", "image", "push", "dst.example/lib/x:" ++ tag],
         ["docker", "image", "rm", "src.example/lib/x:" ++ tag, "dst.example/lib/x:" ++ tag]] := by
  obtain ⟨new, h, hc, hm⟩ :=
    include_filter filterWorld filterConfig []
      ["app", "lib/x", "App", "lib/x"] _ (by decide) (by decide) (by decide) rfl
  have hstart : (catalog filterWorld filterConfig.SourceUrl filterConfig.SourceLogin
      filterConfig.SourcePassword
      (login filterWorld filterConfig filterConfig.DestinationUrl filterConfig.DestinationLogin
        filterConfig.DestinationPassword
        (login filterWorld filterConfig filterConfig.SourceUrl filterConfig.SourceLogin
          filterConfig.SourcePassword []).1).1).1 =
      [Event.run ["docker", "login", "--username", "u", "--password", "p", "src.example"] none,
       Event.run ["docker", "login", "--username", "v", "--password", "q", "dst.example"] none,
       Event.get "https://u:p@src.example/v2/_catalog"
         (ok200 "\x7b\"repositories\":[\"app\",\"lib/x\",\"App\",\"lib/x\"]\x7d")] := by decide
  rw [hstart] at h
  constructor
  · rw [h, httpCalls_append, hc]; decide
  · intro argv hargv
    rw [h, engineCalls_append] at hargv
    have hargv1 : argv ∈ engineCalls new := by simpa [engineCalls_cons, engineCalls_nil] using hargv
    obtain ⟨image, himage, hmatch, tag, hin⟩ := hm argv hargv1
    have hlib : image = "lib/x" := by
      simp only [List.mem_cons, List.mem_singleton, List.not_mem_nil, or_false] at himage
      rcases himage with rfl | rfl | rfl | rfl
      · exact absurd hmatch (by decide)
      · rfl
      · exact absurd hmatch (by decide)
      · rfl
    subst hlib
    refine ⟨tag, ?_⟩
    simpa [filterConfig, String.append_assoc] using hin

/-- C6: the four fatal errors end the run where they occur, in the order
source login, destination login, catalog fetch, pattern compilation. When
the source login fails the run consists of that process and the fatal log
line; when the destination login fails, of the two logins and the log line,
without any HTTP request; when the catalog fetch fails or the pattern does
not compile, of the two logins, the catalog request and the log line,
without any tag-list request or pull, tag, push or remove. Each time the
process exits through `log.Fatalf`. -/
theorem fatal_errors_abort (w : World) (config : applicationConfiguration) (tr : List Event) :
    let srcLogin := [config.Executable, "login", "--username", config.SourceLogin,
      "--password", config.SourcePassword, config.SourceUrl]
    let dstLogin := [config.Executable, "login", "--username", config.DestinationLogin,
      "--password", config.DestinationPassword, config.DestinationUrl]
    let catalogUrl := "https://" ++ config.SourceLogin ++ ":" ++ config.SourcePassword ++ "@" ++
      config.SourceUrl ++ "/v2/_catalog"
    let tr2 := tr ++ [Event.run srcLogin none, Event.run dstLogin none]
    (∀ e, w.Run tr srcLogin = some e →
      main w config tr =
        (tr ++ [Event.run srcLogin (some e),
                Event.fatalf "unable to login to source registry: %s" [Arg.err e]],
          Exit.fatal)) ∧
    (∀ e, w.Run tr srcLogin = none →
      w.Run (tr ++ [Event.run srcLogin none]) dstLogin = some e →
      main w config tr =
        (tr ++ [Event.run srcLogin none, Event.run dstLogin (some e),
                Event.fatalf "unable to login to destination registry: %s" [Arg.err e]],
          Exit.fatal)) ∧
    (∀ e, w.Run tr srcLogin = none →
      w.Run (tr ++ [Event.run srcLogin none]) dstLogin = none →
      (catalogResponse config.SourceUrl (w.Get tr2 catalogUrl)).2 = some e →
      main w config tr =
        (tr2 ++ [Event.get catalogUrl (w.Get tr2 catalogUrl),
                 Event.fatalf "unable to get source catalog: %s" [Arg.err e]],
          Exit.fatal)) ∧
    (∀ e, w.Run tr srcLogin = none →
      w.Run (tr ++ [Event.run srcLogin none]) dstLogin = none →
      (catalogResponse config.SourceUrl (w.Get tr2 catalogUrl)).2 = none →
      w.Compile config.SourceInclude = CompileResult.failed e →
      main w config tr =
        (tr2 ++ [Event.get catalogUrl (w.Get tr2 catalogUrl),
                 Event.fatalf "unable to compile include regex: %s" [Arg.err e]],
          Exit.fatal)) := by
  intro srcLogin dstLogin catalogUrl tr2
  refine ⟨?_, ?_, ?_, ?_⟩
  · intro e h1
    simp [main, login, cmdRun, srcLogin, h1] at *
  · intro e h1 h2
    simp [main, login, cmdRun, srcLogin, dstLogin, h1, h2] at *
  · intro e h1 h2 h3
    rw [main_catalog_failed w config tr e h1 h2 h3]
  · intro e h1 h2 h3 h4
    have hl1 : login w config config.SourceUrl config.SourceLogin config.SourcePassword tr =
        (tr ++ [Event.run srcLogin none], none) := by
      simp only [login, cmdRun, srcLogin] at h1 ⊢
      rw [h1]
    have hl2 : login w config config.DestinationUrl config.DestinationLogin
        config.DestinationPassword (tr ++ [Event.run srcLogin none]) = (tr2, none) := by
      simp only [login, cmdRun, dstLogin, tr2] at h2 ⊢
      rw [h2]
      simp
    rcases hc : catalogResponse config.SourceUrl (w.Get tr2 catalogUrl) with ⟨l, o⟩
    rw [hc] at h3
    simp only at h3
    subst h3
    have hcat : catalog w config.SourceUrl config.SourceLogin config.SourcePassword tr2 =
        (tr2 ++ [Event.get catalogUrl (w.Get tr2 catalogUrl)], l, none) := by
      simp only [catalog, catalogUrl] at hc ⊢
      rw [hc]
    simp only [main, hl1, hl2, hcat, h4, List.append_assoc, List.singleton_append]

/-- C6 on concrete worlds: a failing source login, a failing destination
login, an unreachable registry and the pattern `*`, which does not compile. -/
theorem fatal_errors_abort_witness :
    main (scriptedWorld [["docker", "login", "--username", "u", "--password", "p", "src.example"]]
        []) demoConfig [] =
      ([Event.run ["docker", "login", "--username", "u", "--password", "p", "src.example"]
          (some (GoError.msg "exit status 1")),
        Event.fatalf "unable to login to source registry: %s"
          [Arg.err (GoError.msg "exit status 1")]], Exit.fatal) ∧
    main (scriptedWorld [["docker", "login", "--username", "v", "--password", "q", "dst.example"]]
        []) demoConfig [] =
      ([Event.run ["docker", "login", "--username", "u", "--password", "p", "src.example"] none,
        Event.run ["docker", "login", "--username", "v", "--password", "q", "dst.example"]
          (some (GoError.msg "exit status 1")),
        Event.fatalf "unable to login to destination registry: %s"
          [Arg.err (GoError.msg "exit status 1")]], Exit.fatal) ∧
    main (scriptedWorld [] []) demoConfig [] =
      ([Event.run ["docker", "login", "--username", "u", "--password", "p", "src.example"] none,
        Event.run ["docker", "login", "--username", "v", "--password", "q", "dst.example"] none,
        Event.get "https://u:p@src.example/v2/_catalog"
          (GetResult.failed (GoError.msg "connection refused")),
        Event.fatalf "unable to get source catalog: %s"
          [Arg.err (GoError.msg "connection refused")]], Exit.fatal) ∧
    main demoWorld { demoConfig with SourceInclude := "*" } [] =
      ([Event.run ["docker", "login", "--username", "u", "--password", "p", "src.example"] none,
        Event.run ["docker", "login", "--username", "v", "--password", "q", "dst.example"] none,
        Event.get "https://u:p@src.example/v2/_catalog"
          (ok200 "\x7b\"repositories\":[\"app\",\"lib\"]\x7d"),
        Event.fatalf "unable to compile include regex: %s"
          [Arg.err (GoError.msg
            "error parsing regexp: missing argument to repetition operator: `*`")]],
        Exit.fatal) :=
  ⟨(fatal_errors_abort _ demoConfig []).1 _ (by decide),
   (fatal_errors_abort _ demoConfig []).2.1 _ (by decide) (by decide),
   (fatal_errors_abort _ demoConfig []).2.2.1 _ (by decide) (by decide) (by decide),
   (fatal_errors_abort demoWorld { demoConfig with SourceInclude := "*" } []).2.2.2 _
     (by decide) (by decide) (by decide) (by rfl)⟩

/-! ## The external interface -/

/-- C8: `login` runs exactly `[exe, "login", "--username", login,
"--password", password, url]` and returns what the world answers. With
`SRC` and `DST` the source and the destination URL followed by the same
`"/" ++ image ++ ":" ++ tag`, the argument vectors `copyImageTag` runs are
`[exe, "image", "pull", "-q", SRC]` alone when the world fails the pull;
that and `[exe, "image", "tag", SRC, DST]` when it fails the tag; these two
and `[exe, "image", "push", DST]` when it fails the push; and these three
and `[exe, "image", "rm", SRC, DST]` when pull, tag and push succeed. -/
theorem engine_argument_vectors (w : World) (config : applicationConfiguration)
    (url user password sourceUrl destinationUrl image tag : String) (tr : List Event) :
    let SRC := sourceUrl ++ "/" ++ image ++ ":" ++ tag
    let DST := destinationUrl ++ "/" ++ image ++ ":" ++ tag
    let pull := [config.Executable, "image", "pull", "-q", SRC]
    let retag := [config.Executable, "image", "tag", SRC, DST]
    let push := [config.Executable, "image", "push", DST]
    let remove := [config.Executable, "image", "rm", SRC, DST]
    let atPull := tr ++ [Event.infof "pull %s" [Arg.str SRC]]
    let atTag := tr ++ [Event.infof "pull %s" [Arg.str SRC], Event.run pull none,
      Event.infof "tag %s to %s" [Arg.str SRC, Arg.str DST]]
    let atPush := tr ++ [Event.infof "pull %s" [Arg.str SRC], Event.run pull none,
      Event.infof "tag %s to %s" [Arg.str SRC, Arg.str DST], Event.run retag none,
      Event.infof "push %s" [Arg.str DST]]
    let userLogin := [config.Executable, "login", "--username", user, "--password", password, url]
    let r := copyImageTag w config sourceUrl destinationUrl image tag tr
    login w config url user password tr =
      (tr ++ [Event.run userLogin (w.Run tr userLogin)], w.Run tr userLogin) ∧
    engineCalls (login w config url user password tr).1 = engineCalls tr ++ [userLogin] ∧
    (∀ e, w.Run atPull pull = some e → engineCalls r.1 = engineCalls tr ++ [pull]) ∧
    (∀ e, w.Run atPull pull = none → w.Run atTag retag = some e →
      engineCalls r.1 = engineCalls tr ++ [pull, retag]) ∧
    (∀ e, w.Run atPull pull = none → w.Run atTag retag = none → w.Run atPush push = some e →
      engineCalls r.1 = engineCalls tr ++ [pull, retag, push]) ∧
    (w.Run atPull pull = none → w.Run atTag retag = none → w.Run atPush push = none →
      engineCalls r.1 = engineCalls tr ++ [pull, retag, push, remove]) := by
  intro SRC DST pull retag push remove atPull atTag atPush userLogin r
  obtain ⟨c1, c2, c3, c4⟩ := copyImageTag_eq w config sourceUrl destinationUrl image tag tr
  refine ⟨rfl, ?_, ?_, ?_, ?_, ?_⟩
  · simp [login, cmdRun, engineCalls_append, engineCalls_cons, engineCalls_nil, userLogin]
  · intro e hp
    show engineCalls (copyImageTag w config sourceUrl destinationUrl image tag tr).1 = _
    rw [c1 e hp, engineCalls_append]
    rfl
  · intro e hp ht
    show engineCalls (copyImageTag w config sourceUrl destinationUrl image tag tr).1 = _
    rw [c2 e hp ht, engineCalls_append]
    rfl
  · intro e hp ht hq
    show engineCalls (copyImageTag w config sourceUrl destinationUrl image tag tr).1 = _
    rw [c3 e hp ht hq, engineCalls_append]
    rfl
  · intro hp ht hq
    show engineCalls (copyImageTag w config sourceUrl destinationUrl image tag tr).1 = _
    rw [c4 hp ht hq, engineCalls_append]
    rfl

/-- C8 on concrete worlds: the login to the destination registry, a copy
that succeeds and a copy whose push fails; the image pushed is the one
pulled, under the other registry. -/
theorem engine_argument_vectors_witness :
    login demoWorld demoConfig "dst.example" "v" "q" [] =
      ([Event.run ["docker", "login", "--username", "v", "--password", "q", "dst.example"] none],
        none) ∧
    engineCalls
        (copyImageTag demoWorld demoConfig "src.example" "dst.example" "app" "v2" []).1 =
      [["docker", "image", "pull", "-q", "src.example/app:v2"],
       ["docker", "image", "tag", "src.example/app:v2", "dst.example/app:v2"],
       ["docker", "image", "push", "dst.example/app:v2"],
       ["docker", "image", "rm", "src.example/app:v2", "dst.example/app:v2"]] ∧
    engineCalls
        (copyImageTag demoWorld demoConfig "src.example" "dst.example" "app" "v1" []).1 =
      [["docker", "image", "pull", "-q", "src.example/app:v1"],
       ["docker", "image", "tag", "src.example/app:v1", "dst.example/app:v1"],
       ["docker", "image", "push", "dst.example/app:v1"]] ∧
    engineCalls
        (copyImageTag pullFailsWorld demoConfig "src.example" "dst.example" "app" "v1" []).1 =
      [["docker", "image", "pull", "-q", "src.example/app:v1"]] ∧
    engineCalls
        (copyImageTag tagFailsWorld demoConfig "src.example" "dst.example" "app" "v1" []).1 =
      [["docker", "image", "pull", "-q", "src.example/app:v1"],
       ["docker", "image", "tag", "src.example/app:v1", "dst.example/app:v1"]] :=
  ⟨(engine_argument_vectors demoWorld demoConfig "dst.example" "v" "q" "src.example"
      "dst.example" "app" "v2" []).1,
   (engine_argument_vectors demoWorld demoConfig "dst.example" "v" "q" "src.example"
      "dst.example" "app" "v2" []).2.2.2.2.2 (by decide) (by decide) (by decide),
   (engine_argument_vectors demoWorld demoConfig "dst.example" "v" "q" "src.example"
      "dst.example" "app" "v1" []).2.2.2.2.1 (GoError.msg "exit status 1")
      (by decide) (by decide) (by decide),
   (engine_argument_vectors pullFailsWorld demoConfig "dst.example" "v" "q" "src.example"
      "dst.example" "app" "v1" []).2.2.1 (GoError.msg "exit status 1") (by decide),
   (engine_argument_vectors tagFailsWorld demoConfig "dst.example" "v" "q" "src.example"
      "dst.example" "app" "v1" []).2.2.2.1 (GoError.msg "exit status 1") (by decide) (by decide)⟩

/-- C9: `catalog` requests exactly
`"https://" ++ login ++ ":" ++ password ++ "@" ++ url ++ "/v2/_catalog"` and
`tags` exactly
`"https://" ++ login ++ ":" ++ password ++ "@" ++ url ++ "/v2/" ++ image ++ "/tags/list"`:
each adds that one GET to the trace and nothing else, with its inputs
inserted as they are. -/
theorem registry_query_urls (w : World) (url login password image : String) (tr : List Event) :
    (catalog w url login password tr).1 =
      tr ++ [Event.get ("https://" ++ login ++ ":" ++ password ++ "@" ++ url ++ "/v2/_catalog")
        (w.Get tr ("https://" ++ login ++ ":" ++ password ++ "@" ++ url ++ "/v2/_catalog"))] ∧
    httpCalls (catalog w url login password tr).1 =
      httpCalls tr ++ ["https://" ++ login ++ ":" ++ password ++ "@" ++ url ++ "/v2/_catalog"] ∧
    (tags w url login password image tr).1 =
      tr ++ [Event.get
        ("https://" ++ login ++ ":" ++ password ++ "@" ++ url ++ "/v2/" ++ image ++ "/tags/list")
        (w.Get tr
          ("https://" ++ login ++ ":" ++ password ++ "@" ++ url ++ "/v2/" ++ image ++
            "/tags/list"))] ∧
    httpCalls (tags w url login password image tr).1 =
      httpCalls tr ++
        ["https://" ++ login ++ ":" ++ password ++ "@" ++ url ++ "/v2/" ++ image ++ "/tags/list"] := by
  refine ⟨rfl, ?_, rfl, ?_⟩
  · simp [catalog, httpCalls_append, httpCalls_cons, httpCalls_nil]
  · simp [tags, httpCalls_append, httpCalls_cons, httpCalls_nil]

/-! ## Registry answers: status and body -/

/-- C3, as stated, fails for the catalog: with a 404 answer to the catalog
request the run is aborted through `log.Fatalf` (exit status 1) right after
that request. -/
theorem catalog_status_error_aborts :
    notFoundWorld.Get
        [Event.run ["docker", "login", "--username", "u", "--password", "p", "src.example"] none,
         Event.run ["docker", "login", "--username", "v", "--password", "q", "dst.example"] none]
        "https://u:p@src.example/v2/_catalog" =
      GetResult.response
        { StatusCode := 404, Status := "404 Not Found",
          Body := ReadResult.data (utf8Bytes "not found") } ∧
    main notFoundWorld demoConfig [] =
      ([Event.run ["docker", "login", "--username", "u", "--password", "p", "src.example"] none,
        Event.run ["docker", "login", "--username", "v", "--password", "q", "dst.example"] none,
        Event.get "https://u:p@src.example/v2/_catalog" notFound,
        Event.fatalf "unable to get source catalog: %s"
          [Arg.err (GoError.msg "catalog src.example unexpected status: 404 Not Found")]],
        Exit.fatal) := by
  constructor <;> decide

/-- C3, amended: for a response whose status is not 200, `catalog` and `tags`
return an error whatever the body is. After such an answer to a tag-list
request the run is not aborted: the error is logged, no engine process is
run for the repository and the loop goes on with the next repository. After
such an answer to the catalog request the run is aborted: the error is
logged through `log.Fatalf` and nothing else is done. -/
theorem status_error_skips_repository (w : World) (config : applicationConfiguration)
    (regex : Regexp) (image : String) (rest : List String) (tr : List Event) (url : String)
    (resp : Response) (hstatus : resp.StatusCode ≠ 200) :
    let tagsUrl := "https://" ++ config.SourceLogin ++ ":" ++ config.SourcePassword ++ "@" ++
      config.SourceUrl ++ "/v2/" ++ image ++ "/tags/list"
    let catalogUrl := "https://" ++ config.SourceLogin ++ ":" ++ config.SourcePassword ++ "@" ++
      config.SourceUrl ++ "/v2/_catalog"
    let srcLogin := [config.Executable, "login", "--username", config.SourceLogin,
      "--password", config.SourcePassword, config.SourceUrl]
    let dstLogin := [config.Executable, "login", "--username", config.DestinationLogin,
      "--password", config.DestinationPassword, config.DestinationUrl]
    catalogResponse url (GetResult.response resp) =
      ([], some (GoError.msg ("catalog " ++ url ++ " unexpected status: " ++ resp.Status))) ∧
    tagsResponse image (GetResult.response resp) =
      ([], some (GoError.msg ("tags " ++ image ++ " unexpected status: " ++ resp.Status))) ∧
    (regex.MatchString image = true → w.Get tr tagsUrl = GetResult.response resp →
      mainImages w config regex (image :: rest) tr =
        mainImages w config regex rest
          (tr ++ [Event.get tagsUrl (GetResult.response resp),
            Event.errorf "unable to get tags for %s: %s" [Arg.str image,
              Arg.err (GoError.msg ("tags " ++ image ++ " unexpected status: " ++ resp.Status))],
            Event.printf "tags for %s: %s\n" [Arg.str image, Arg.strs []]])) ∧
    (w.Run tr srcLogin = none → w.Run (tr ++ [Event.run srcLogin none]) dstLogin = none →
      w.Get (tr ++ [Event.run srcLogin none, Event.run dstLogin none]) catalogUrl =
        GetResult.response resp →
      main w config tr =
        (tr ++ [Event.run srcLogin none, Event.run dstLogin none] ++
          [Event.get catalogUrl (GetResult.response resp),
           Event.fatalf "unable to get source catalog: %s" [Arg.err (GoError.msg
             ("catalog " ++ config.SourceUrl ++ " unexpected status: " ++ resp.Status))]],
          Exit.fatal)) := by
  intro tagsUrl catalogUrl srcLogin dstLogin
  have hcat : ∀ u, catalogResponse u (GetResult.response resp) =
      ([], some (GoError.msg ("catalog " ++ u ++ " unexpected status: " ++ resp.Status))) := by
    intro u
    simp [catalogResponse, hstatus]
  have htags : tagsResponse image (GetResult.response resp) =
      ([], some (GoError.msg ("tags " ++ image ++ " unexpected status: " ++ resp.Status))) := by
    simp [tagsResponse, hstatus]
  refine ⟨hcat url, htags, ?_, ?_⟩
  · intro hm hget
    have h := mainImages_tags_failed w config regex image rest tr
      (GoError.msg ("tags " ++ image ++ " unexpected status: " ++ resp.Status)) hm
      (by rw [hget, htags])
    rw [h, hget]
  · intro h1 h2 hget
    have h := main_catalog_failed w config tr
      (GoError.msg ("catalog " ++ config.SourceUrl ++ " unexpected status: " ++ resp.Status))
      h1 h2 (by rw [hget, hcat])
    rw [h, hget]

set_option maxRecDepth 100000 in
/-- C3 amended, on a concrete world: the tag list of `lib` is answered with
404, the error is logged and the loop goes on to copy `app`. -/
theorem status_error_skips_repository_witness :
    mainImages demoWorld demoConfig { MatchString := fun _ => true } ["lib", "app"] [] =
      mainImages demoWorld demoConfig { MatchString := fun _ => true } ["app"]
        [Event.get "https://u:p@src.example/v2/lib/tags/list" notFound,
         Event.errorf "unable to get tags for %s: %s" [Arg.str "lib",
           Arg.err (GoError.msg "tags lib unexpected status: 404 Not Found")],
         Event.printf "tags for %s: %s\n" [Arg.str "lib", Arg.strs []]] ∧
    pullCalls (mainImages demoWorld demoConfig { MatchString := fun _ => true } ["lib", "app"] []) =
      [["docker", "image", "pull", "-q", "src.example/app:v1"],
       ["docker", "image", "pull", "-q", "src.example/app:v2"]] :=
  ⟨(status_error_skips_repository demoWorld demoConfig { MatchString := fun _ => true } "lib"
      ["app"] [] "src.example"
      { StatusCode := 404, Status := "404 Not Found",
          Body := ReadResult.data (utf8Bytes "not found") }
      (by decide)).2.2.1 rfl (by decide),
   by decide⟩

set_option maxRecDepth 100000 in
/-- C5, as stated, fails twice. The calls also succeed on bodies that do not
have the fixed shape: `catalog` on an empty object and on `null`, `tags` on
an object without a name and with one more member. And a parse error of the
catalog does abort the run: with a malformed catalog body `main` ends
through `log.Fatalf`. -/
theorem lenient_decoding_and_fatal_catalog :
    catalogResponse "src.example" (ok200 "\x7b\x7d") = ([], none) ∧
    catalogResponse "src.example" (ok200 "null") = ([], none) ∧
    tagsResponse "app" (ok200 "\x7b\"tags\":[\"v1\"],\"more\":1\x7d") = (["v1"], none) ∧
    main brokenCatalogWorld demoConfig [] =
      ([Event.run ["docker", "login", "--username", "u", "--password", "p", "src.example"] none,
        Event.run ["docker", "login", "--username", "v", "--password", "q", "dst.example"] none,
        Event.get "https://u:p@src.example/v2/_catalog" (ok200 "\x7b"),
        Event.fatalf "unable to get source catalog: %s" [Arg.err GoError.jsonSyntax]],
        Exit.fatal) := by
  refine ⟨?_, ?_, ?_, ?_⟩ <;> decide

/-- C5, amended: for a 200 response whose body is read, `catalog` and `tags`
return exactly the listed strings, in order, when the body is the JSON
object of the fixed shape, and a parse error, as a value, when the body is
not valid JSON (or `json.Unmarshal` rejects it). A parse error of a tag list
does not abort the run: it is logged, nothing is copied for the repository
and the loop goes on. A parse error of the catalog is fatal: `main` logs it
through `log.Fatalf` and the run ends. -/
theorem body_decoding (w : World) (config : applicationConfiguration) (regex : Regexp)
    (image : String) (rest : List String) (tr : List Event) (url status : String)
    (body : List UInt8) :
    let resp := GetResult.response
      { StatusCode := 200, Status := status, Body := ReadResult.data body }
    let tagsUrl := "https://" ++ config.SourceLogin ++ ":" ++ config.SourcePassword ++ "@" ++
      config.SourceUrl ++ "/v2/" ++ image ++ "/tags/list"
    let catalogUrl := "https://" ++ config.SourceLogin ++ ":" ++ config.SourcePassword ++ "@" ++
      config.SourceUrl ++ "/v2/_catalog"
    let srcLogin := [config.Executable, "login", "--username", config.SourceLogin,
      "--password", config.SourcePassword, config.SourceUrl]
    let dstLogin := [config.Executable, "login", "--username", config.DestinationLogin,
      "--password", config.DestinationPassword, config.DestinationUrl]
    (∀ l, parseJSON body = some (JSON.obj [("repositories", JSON.arr (l.map JSON.str))]) →
      catalogResponse url resp = (l, none)) ∧
    (∀ name l, parseJSON body =
        some (JSON.obj [("name", JSON.str name), ("tags", JSON.arr (l.map JSON.str))]) →
      tagsResponse image resp = (l, none)) ∧
    (parseJSON body = none →
      catalogResponse url resp = ([], some GoError.jsonSyntax) ∧
      tagsResponse image resp = ([], some GoError.jsonSyntax)) ∧
    (∀ e, UnmarshalTags body = Except.error e →
      regex.MatchString image = true → w.Get tr tagsUrl = resp →
      mainImages w config regex (image :: rest) tr =
        mainImages w config regex rest
          (tr ++ [Event.get tagsUrl resp,
            Event.errorf "unable to get tags for %s: %s" [Arg.str image, Arg.err e],
            Event.printf "tags for %s: %s\n" [Arg.str image, Arg.strs []]])) ∧
    (∀ e, UnmarshalCatalog body = Except.error e →
      w.Run tr srcLogin = none → w.Run (tr ++ [Event.run srcLogin none]) dstLogin = none →
      w.Get (tr ++ [Event.run srcLogin none, Event.run dstLogin none]) catalogUrl = resp →
      main w config tr =
        (tr ++ [Event.run srcLogin none, Event.run dstLogin none] ++
          [Event.get catalogUrl resp,
           Event.fatalf "unable to get source catalog: %s" [Arg.err e]], Exit.fatal)) := by
  intro resp tagsUrl catalogUrl srcLogin dstLogin
  refine ⟨?_, ?_, ?_, ?_, ?_⟩
  · intro l h
    have h1 : keyMatches "repositories" "repositories" = true := by decide
    obtain ⟨sl, hsl, hl⟩ := decodeStrings_strings l
    simp [resp, catalogResponse, UnmarshalCatalog, h, decodeCatalogMembers, hsl, hl, h1]
  · intro name l h
    have h1 : keyMatches "name" "tags" = false := by decide
    have h2 : keyMatches "name" "name" = true := by decide
    have h3 : keyMatches "tags" "tags" = true := by decide
    obtain ⟨sl, hsl, hl⟩ := decodeStrings_strings l
    simp [resp, tagsResponse, UnmarshalTags, h, decodeTagsMembers, hsl, hl, decodeString,
      h1, h2, h3]
  · intro h
    simp [resp, catalogResponse, tagsResponse, UnmarshalCatalog, UnmarshalTags, h]
  · intro e he hm hget
    have h := mainImages_tags_failed w config regex image rest tr e hm
      (by rw [hget]; simp [resp, tagsResponse, he])
    rw [h, hget]
  · intro e he h1 h2 hget
    have h := main_catalog_failed w config tr e h1 h2
      (by rw [hget]; simp [resp, catalogResponse, he])
    rw [h, hget]

set_option maxRecDepth 100000 in
/-- C5 amended, on a concrete world: the catalog and the tag list of `app`
are read as listed; the tag list of `lib` is cut short, which is logged, and
the run goes on and copies `app:v1`. -/
theorem body_decoding_witness :
    catalogResponse "src.example" (ok200 "\x7b\"repositories\":[\"lib\",\"app\"]\x7d") =
      (["lib", "app"], none) ∧
    tagsResponse "app" (ok200 " \x7b \"name\" : \"app\", \"tags\" : [ \"v1\" ] \x7d\n") =
      (["v1"], none) ∧
    mainImages brokenTagsWorld demoConfig { MatchString := fun _ => true } ["lib", "app"] [] =
      mainImages brokenTagsWorld demoConfig { MatchString := fun _ => true } ["app"]
        [Event.get "https://u:p@src.example/v2/lib/tags/list"
           (ok200 "\x7b\"name\":\"lib\",\"tags\":[\"v1\""),
         Event.errorf "unable to get tags for %s: %s" [Arg.str "lib", Arg.err GoError.jsonSyntax],
         Event.printf "tags for %s: %s\n" [Arg.str "lib", Arg.strs []]] ∧
    (main brokenTagsWorld demoConfig []).2 = Exit.returned ∧
    pullCalls (main brokenTagsWorld demoConfig []).1 =
      [["docker", "image", "pull", "-q", "src.example/app:v1"]] :=
  ⟨(body_decoding brokenTagsWorld demoConfig { MatchString := fun _ => true } "lib" ["app"] []
      "src.example" "200 OK" (utf8Bytes "\x7b\"repositories\":[\"lib\",\"app\"]\x7d")).1
      ["lib", "app"] rfl,
   (body_decoding brokenTagsWorld demoConfig { MatchString := fun _ => true } "app" [] []
      "src.example" "200 OK"
      (utf8Bytes " \x7b \"name\" : \"app\", \"tags\" : [ \"v1\" ] \x7d\n")).2.1
      "app" ["v1"] rfl,
   (body_decoding brokenTagsWorld demoConfig { MatchString := fun _ => true } "lib" ["app"] []
      "src.example" "200 OK" (utf8Bytes "\x7b\"name\":\"lib\",\"tags\":[\"v1\"")).2.2.2.1
      GoError.jsonSyntax rfl rfl (by decide),
   by decide, by decide⟩

/-! ## The default pattern -/

/-- C4: when the configuration file supplies no include pattern, `init`
leaves `SourceInclude` at its default `.*`; that pattern compiles and its
`MatchString` is true of every string (the empty string and strings with
line feeds included); so, in any world whose `regexp.Compile` does on `.*`
what the model does, once the logins and the catalog fetch have succeeded
`main` requests the tags of every catalog entry, in order. -/
theorem default_pattern_matches_everything :
    (∀ (keys : AppKeys) (err : Option GoError), keys.SourceInclude = none →
      ∃ config, (init (Sum.inr (keys, err))).2 = some config ∧ config.SourceInclude = ".*") ∧
    (∃ regex, regexpCompile ".*" = some (CompileResult.ok regex) ∧
      ∀ name, regex.MatchString name = true) ∧
    (∀ (w : World) (config : applicationConfiguration) (tr : List Event) (images : List String),
      config.SourceInclude = ".*" → regexpCompile ".*" = some (w.Compile ".*") →
      (login w config config.SourceUrl config.SourceLogin config.SourcePassword tr).2 = none →
      (login w config config.DestinationUrl config.DestinationLogin config.DestinationPassword
        (login w config config.SourceUrl config.SourceLogin config.SourcePassword tr).1).2 = none →
      (catalog w config.SourceUrl config.SourceLogin config.SourcePassword
        (login w config config.DestinationUrl config.DestinationLogin config.DestinationPassword
          (login w config config.SourceUrl config.SourceLogin
            config.SourcePassword tr).1).1).2 = (images, none) →
      ∃ new,
        (main w config tr).1 =
          (catalog w config.SourceUrl config.SourceLogin config.SourcePassword
            (login w config config.DestinationUrl config.DestinationLogin
              config.DestinationPassword
              (login w config config.SourceUrl config.SourceLogin
                config.SourcePassword tr).1).1).1 ++ new ∧
        httpCalls new = images.map (fun image =>
          "https://" ++ config.SourceLogin ++ ":" ++ config.SourcePassword ++ "@" ++
            config.SourceUrl ++ "/v2/" ++ image ++ "/tags/list") ∧
        (main w config tr).2 = Exit.returned) := by
  have hall : ∀ name : String,
      RE.search (RE.cat RE.eps (RE.star RE.anyCharNotNL)) name.toList = true :=
    fun name => RE.search_of_nullable (RE.cat RE.eps (RE.star RE.anyCharNotNL)) rfl name.toList
  refine ⟨?_, ⟨⟨fun s => RE.search (RE.cat RE.eps (RE.star RE.anyCharNotNL)) s.toList⟩,
    rfl, hall⟩, ?_⟩
  · intro keys err hkeys
    exact ⟨_, rfl, by simp [UnmarshalKey, hkeys]⟩
  · intro w config tr images hinc hre hsrc hdst hcat
    have hre' : w.Compile config.SourceInclude =
        CompileResult.ok ⟨fun s => RE.search (RE.cat RE.eps (RE.star RE.anyCharNotNL)) s.toList⟩ := by
      rw [hinc]
      have h0 : regexpCompile ".*" = some (CompileResult.ok
          ⟨fun s => RE.search (RE.cat RE.eps (RE.star RE.anyCharNotNL)) s.toList⟩) := rfl
      rw [h0] at hre
      exact (Option.some.inj hre).symm
    rw [main_past_fatal w config tr images _ hsrc hdst hcat hre']
    obtain ⟨new, h, hc, -, -⟩ := mainImages_events w config
      ⟨fun s => RE.search (RE.cat RE.eps (RE.star RE.anyCharNotNL)) s.toList⟩ images
      (catalog w config.SourceUrl config.SourceLogin config.SourcePassword
        (login w config config.DestinationUrl config.DestinationLogin
          config.DestinationPassword
          (login w config config.SourceUrl config.SourceLogin
            config.SourcePassword tr).1).1).1
    refine ⟨new, h, ?_, rfl⟩
    rw [hc]
    congr 1
    exact List.filter_eq_self.mpr (fun a _ => hall a)

set_option maxRecDepth 100000 in
/-- C4 on a concrete run: a configuration file without include pattern, and
the registry of the demo world; the tags of both repositories are
requested. -/
theorem default_pattern_matches_everything_witness :
    (init (Sum.inr (demoKeys, none))).2 = some demoConfig ∧
    regexpMatch ".*" "" = some true ∧ regexpMatch ".*" "a\nb" = some true ∧
    regexpMatch ".*" "\n" = some true ∧
    httpCalls (main demoWorld demoConfig []).1 =
      ["https://u:p@src.example/v2/_catalog",
       "https://u:p@src.example/v2/app/tags/list",
       "https://u:p@src.example/v2/lib/tags/list"] := by
  obtain ⟨new, h, hc, -⟩ := default_pattern_matches_everything.2.2 demoWorld demoConfig []
    ["app", "lib"] rfl rfl (by decide) (by decide) (by decide)
  refine ⟨by decide, by decide, by decide, by decide, ?_⟩
  rw [h, httpCalls_append, hc]
  decide

end RegistryMigration
